import Mathlib

/-!
# LoongArch ELF-loader: multicore boot barrier and kernel handoff

A verification development for `elfloader-tool/src/arch-loongarch/boot.c`.

The file is embedded as a control-flow machine.  Every statement of `main`,
`run_elfloader`, `set_and_wait_for_ready`, `secondary_entry` and `abort` that
touches shared memory or calls a collaborator is one program point (`PC`);
`step` executes the statement at the current program point of one core
against the shared globals.  A spin loop (`while (cond) ;`) is a program point
whose step re-evaluates the condition once and stays put while it holds.
Cores are interleaved by `Sys.run`, which folds `step` over a schedule (a list
of thread indices); a property proved for every schedule holds for every
interleaving of the atomic statements.  Shared memory is sequentially
consistent: every `__atomic_*` builtin and every plain access to a global is
one indivisible step.

External collaborators (`load_images`, the kernel image, `hsm_exists`, the
configured core count) are fields of `Platform`.
-/

namespace Elfloader

/-- Modelled from the spec: `struct image_info` is declared in a header that is
not part of the sources; the spec lists physical start/end addresses, a
physical-to-virtual offset and a virtual entry address, which are exactly the
fields `boot.c` reads. -/
structure image_info where
  phys_region_start : Nat
  phys_region_end : Nat
  phys_virt_offset : Nat
  virt_entry : Nat
deriving DecidableEq, Repr

/-- The file-scope variables of `boot.c` (lines 20-27 and 52-55). -/
structure Globals where
  kernel_info : image_info
  user_info : image_info
  dtb : Nat
  dtb_size : Nat
  secondary_go : Int
  next_logical_core_id : Int
  mutex : Int
  core_ready : List Int
deriving DecidableEq, Repr

/-- The values `load_images` leaves behind: its status code and everything it
writes through its pointer arguments. -/
structure LoadResult where
  ret : Int
  num_apps : Nat
  kernel_info : image_info
  user_info : image_info
  dtb : Nat
  dtb_size : Nat
deriving DecidableEq, Repr

/-- Everything `boot.c` takes from outside the file: the configuration constant
`CONFIG_MAX_NUM_NODES`, the flag `hsm_exists`, the linker symbols printed by
`main`, the image loader (as a function of `max_user_images` and the boot blob
address), and whether a call of the kernel entry with a given target and
argument list hands control back. -/
structure Platform where
  CONFIG_MAX_NUM_NODES : Nat
  hsm_exists : Bool
  text_start : Nat
  text_end : Nat
  load_images : Nat → Nat → LoadResult
  kernel_returns : Nat → List Int → Bool

/-- Entry routines handed to `sbi_hart_start`; `boot.c` only ever passes the
assembly trampoline `secondary_harts`. -/
inductive Routine where
  | secondary_harts
deriving DecidableEq, Repr

/-- Observable actions of one core, in program order: collaborator calls, the
stores to `secondary_go` and `core_ready`, and entry to / return from
`set_and_wait_for_ready`. -/
inductive Event where
  | initialise_devices
  | printf (fmt : String) (args : List Int)
  | load_images (max_user_images : Nat) (bootloader_dtb : Nat)
  | store_secondary_go (v : Int)
  | sbi_hart_start (hartid : Int) (start : Routine) (arg : Int)
  | call_set_and_wait_for_ready (hart_id : Int) (core_id : Int)
  | store_core_ready (idx : Int) (v : Int)
  | return_set_and_wait_for_ready
  | enable_virtual_memory
  | kernel_entry (target : Nat) (args : List Int)
deriving DecidableEq, Repr

/-- Program points of `boot.c`. -/
inductive PC where
  /- `main`, line 181: `initialise_devices()` -/
  | main_init
  /- `main`, line 185: `printf("ELF-loader started ...")` -/
  | main_printf_started
  /- `main`, line 188: `printf("  paddr=[%p..%p]\n", ...)`, then the call of
  `run_elfloader` on line 193 -/
  | main_printf_paddr
  /- `run_elfloader`, lines 86-98: `load_images(...)` and the two checks -/
  | re_load
  /- `run_elfloader`, lines 90-91: report the status, `return -1` -/
  | re_err_load (ret : Int)
  /- `run_elfloader`, lines 95-97: report the app count, `return -1` -/
  | re_err_apps (num_apps : Nat)
  /- `run_elfloader`, line 101: spin on `__atomic_exchange_n(&mutex, 1)` -/
  | re_lock
  /- `run_elfloader`, line 102: `printf("Main entry hart_id:%d\n")` -/
  | re_printf_entry
  /- `run_elfloader`, line 103: `__atomic_store_n(&mutex, 0)` -/
  | re_unlock
  /- `run_elfloader`, lines 106 and 109: store 1 to `secondary_go`; `i = 0` -/
  | re_store_go
  /- `run_elfloader`, lines 110-117: loop test, one iteration of the body, or
  (when the test fails) the call of `set_and_wait_for_ready(hart_id, 0)` -/
  | re_loop (i : Nat)
  /- `run_elfloader`, lines 121-125: the `k`-th of the five `printf`s -/
  | re_printf (k : Nat)
  /- `run_elfloader`, lines 126-137: the indirect call into the kernel -/
  | re_call
  /- `run_elfloader`, lines 140-141: report the returned kernel, `return -1` -/
  | re_kernel_returned
  /- `main`, lines 194-203 with the value returned by `run_elfloader` -/
  | main_ret (ret : Int)
  /- `abort`, line 34: `printf("HALT due to call to abort()\n")` -/
  | abort_printf
  /- `abort`, lines 41-43: `for (;;) idle` -/
  | abort_idle
  /- `set_and_wait_for_ready`, line 59: spin on the mutex exchange -/
  | saw_lock
  /- `set_and_wait_for_ready`, line 60: `printf("Hart ID %d core ID %d\n")` -/
  | saw_printf
  /- `set_and_wait_for_ready`, line 61: `core_ready[core_id] = 1` -/
  | saw_store
  /- `set_and_wait_for_ready`, line 62: `__atomic_store_n(&mutex, 0)` -/
  | saw_unlock
  /- `set_and_wait_for_ready`, lines 65-68: loop test `i < N`, then one load
  of `core_ready[i]`; or the return when the test fails -/
  | saw_poll (i : Nat)
  /- `secondary_entry`, line 148: spin on the load of `secondary_go` -/
  | se_wait_go
  /- `secondary_entry`, line 150: spin on the mutex exchange -/
  | se_lock
  /- `secondary_entry`, line 151: `printf("Secondary entry ...")` -/
  | se_printf
  /- `secondary_entry`, lines 152-154: release the mutex, call
  `set_and_wait_for_ready(hart_id, core_id)` -/
  | se_unlock
  /- `secondary_entry`, line 156: `enable_virtual_memory()` -/
  | se_enable_vm
  /- `secondary_entry`, lines 161-170: the indirect call into the kernel and
  the end of the function -/
  | se_call
  /- control is inside the kernel image and does not come back -/
  | in_kernel
  /- the routine the core started in has returned to its caller -/
  | returned
  /- an array access outside `core_ready` (undefined behaviour) -/
  | fault
deriving DecidableEq, Repr

/-- One core: its program point, the parameters `hart_id`, `bootloader_dtb`
and `core_id` of the routine it runs, the return address of its active
`set_and_wait_for_ready` call, and the events it has produced so far. -/
structure Thread where
  pc : PC
  hart_id : Int
  core_id : Int
  bootloader_dtb : Nat
  ra : PC
  log : List Event
deriving DecidableEq, Repr

/-- Move to program point `pc`, recording the events `evs`. -/
def Thread.goto (t : Thread) (pc : PC) (evs : List Event) : Thread :=
  { t with pc := pc, log := t.log ++ evs }

/-- Argument list of the kernel call on the primary core (lines 126-137): six
arguments, followed by `hart_id, 0` under `#if CONFIG_MAX_NUM_NODES > 1`.  The
values are those of the argument expressions at the call. -/
def primary_args (P : Platform) (g : Globals) (hart_id : Int) : List Int :=
  [(g.user_info.phys_region_start : Int), g.user_info.phys_region_end,
    g.user_info.phys_virt_offset, g.user_info.virt_entry, g.dtb, g.dtb_size]
  ++ (if 1 < P.CONFIG_MAX_NUM_NODES then [hart_id, 0] else [])

/-- Argument list of the kernel call in `secondary_entry` (lines 161-169). -/
def secondary_args (g : Globals) (hart_id core_id : Int) : List Int :=
  [(g.user_info.phys_region_start : Int), g.user_info.phys_region_end,
    g.user_info.phys_virt_offset, g.user_info.virt_entry, g.dtb, g.dtb_size,
    hart_id, core_id]

/-- The five diagnostic lines 121-125 of `run_elfloader`. -/
def jump_printf (kernel_info : image_info) (k : Nat) : Event :=
  match k with
  | 0 => .printf "Jumping to kernel-image entry point...\n\n" []
  | 1 => .printf "kernel_phys_region_start: %p\n" [kernel_info.phys_region_start]
  | 2 => .printf "kernel_phys_region_end: %p\n" [kernel_info.phys_region_end]
  | 3 => .printf "kernel_phys_virt_offset: %p\n" [kernel_info.phys_virt_offset]
  | _ => .printf "kernel_virt_entry: %p\n" [kernel_info.virt_entry]

/-- The function `abort` (lines 32-46): print the halt message, then idle for
ever. -/
def abort (g : Globals) (t : Thread) : Globals × Thread :=
  match t.pc with
  | .abort_printf => (g, t.goto .abort_idle [.printf "HALT due to call to abort()\n" []])
  | .abort_idle => (g, t)
  | _ => (g, t)

/-- The function `set_and_wait_for_ready(hart_id, core_id)` (lines 56-68); the
parameters are the fields `hart_id` and `core_id` of the calling core, and the
function returns to the program point `ra`. -/
def set_and_wait_for_ready (P : Platform) (g : Globals) (t : Thread) : Globals × Thread :=
  match t.pc with
  | .saw_lock =>
    if g.mutex ≠ 0 then ({ g with mutex := 1 }, t)
    else ({ g with mutex := 1 }, t.goto .saw_printf [])
  | .saw_printf =>
    (g, t.goto .saw_store [.printf "Hart ID %d core ID %d\n" [t.hart_id, t.core_id]])
  | .saw_store =>
    if 0 ≤ t.core_id ∧ t.core_id.toNat < g.core_ready.length then
      ({ g with core_ready := g.core_ready.set t.core_id.toNat 1 },
        t.goto .saw_unlock [.store_core_ready t.core_id 1])
    else (g, t.goto .fault [.store_core_ready t.core_id 1])
  | .saw_unlock => ({ g with mutex := 0 }, t.goto (.saw_poll 0) [])
  | .saw_poll i =>
    if i < P.CONFIG_MAX_NUM_NODES then
      match g.core_ready[i]? with
      | some v => if v = 0 then (g, t) else (g, t.goto (.saw_poll (i + 1)) [])
      | none => (g, t.goto .fault [])
    else (g, t.goto t.ra [.return_set_and_wait_for_ready])
  | _ => (g, t)

/-- The function `run_elfloader(hart_id, bootloader_dtb)` (lines 81-142).  The
part between `#if CONFIG_MAX_NUM_NODES > 1` and `#endif` (lines 100-118) is
entered only when `1 < CONFIG_MAX_NUM_NODES`; every `return -1` hands `-1` to
`main` at `main_ret`. -/
def run_elfloader (P : Platform) (g : Globals) (t : Thread) : Globals × Thread :=
  match t.pc with
  | .re_load =>
    let r := P.load_images 1 t.bootloader_dtb
    let g1 := { g with kernel_info := r.kernel_info, user_info := r.user_info,
                       dtb := r.dtb, dtb_size := r.dtb_size }
    let ev := [Event.load_images 1 t.bootloader_dtb]
    if 0 ≠ r.ret then (g1, t.goto (.re_err_load r.ret) ev)
    else if r.num_apps ≠ 1 then (g1, t.goto (.re_err_apps r.num_apps) ev)
    else if 1 < P.CONFIG_MAX_NUM_NODES then (g1, t.goto .re_lock ev)
    else (g1, t.goto (.re_printf 0) ev)
  | .re_err_load ret =>
    (g, t.goto (.main_ret (-1)) [.printf "ERROR: image loading failed, code %d\n" [ret]])
  | .re_err_apps n =>
    (g, t.goto (.main_ret (-1))
      [.printf "ERROR: expected to load just 1 app, actually loaded %u apps\n" [n]])
  | .re_lock =>
    if g.mutex ≠ 0 then ({ g with mutex := 1 }, t)
    else ({ g with mutex := 1 }, t.goto .re_printf_entry [])
  | .re_printf_entry =>
    (g, t.goto .re_unlock [.printf "Main entry hart_id:%d\n" [t.hart_id]])
  | .re_unlock => ({ g with mutex := 0 }, t.goto .re_store_go [])
  | .re_store_go =>
    ({ g with secondary_go := 1 }, t.goto (.re_loop 0) [.store_secondary_go 1])
  | .re_loop i =>
    if i < P.CONFIG_MAX_NUM_NODES ∧ P.hsm_exists = true then
      if ((i + 1 : Nat) : Int) ≠ t.hart_id then
        (g, t.goto (.re_loop (i + 1))
          [.sbi_hart_start ((i + 1 : Nat) : Int) .secondary_harts ((i + 1 : Nat) : Int)])
      else (g, t.goto (.re_loop (i + 1)) [])
    else
      (g, { t with pc := .saw_lock, core_id := 0, ra := .re_printf 0,
                   log := t.log ++ [.call_set_and_wait_for_ready t.hart_id 0] })
  | .re_printf k =>
    (g, t.goto (if k < 4 then .re_printf (k + 1) else .re_call) [jump_printf g.kernel_info k])
  | .re_call =>
    let target := g.kernel_info.phys_region_start
    let args := primary_args P g t.hart_id
    if P.kernel_returns target args = true then
      (g, t.goto .re_kernel_returned [.kernel_entry target args])
    else (g, t.goto .in_kernel [.kernel_entry target args])
  | .re_kernel_returned =>
    (g, t.goto (.main_ret (-1)) [.printf "ERROR: Kernel returned back to the ELF Loader\n" []])
  | _ => (g, t)

/-- The function `secondary_entry(hart_id, core_id)` (lines 146-170).  After
the kernel call the function body ends, so a kernel that hands control back
makes `secondary_entry` return to its caller. -/
def secondary_entry (P : Platform) (g : Globals) (t : Thread) : Globals × Thread :=
  match t.pc with
  | .se_wait_go => if g.secondary_go = 0 then (g, t) else (g, t.goto .se_lock [])
  | .se_lock =>
    if g.mutex ≠ 0 then ({ g with mutex := 1 }, t)
    else ({ g with mutex := 1 }, t.goto .se_printf [])
  | .se_printf =>
    (g, t.goto .se_unlock
      [.printf "Secondary entry hart_id:%d core_id:%d\n" [t.hart_id, t.core_id]])
  | .se_unlock =>
    ({ g with mutex := 0 },
      { t with pc := .saw_lock, ra := .se_enable_vm,
               log := t.log ++ [.call_set_and_wait_for_ready t.hart_id t.core_id] })
  | .se_enable_vm => (g, t.goto .se_call [.enable_virtual_memory])
  | .se_call =>
    let target := g.kernel_info.virt_entry
    let args := secondary_args g t.hart_id t.core_id
    if P.kernel_returns target args = true then
      (g, t.goto .returned [.kernel_entry target args])
    else (g, t.goto .in_kernel [.kernel_entry target args])
  | _ => (g, t)

/-- The function `main(hart_id, bootloader_dtb)` (lines 178-205): both branches
after the call of `run_elfloader` end in `abort()`. -/
def main (P : Platform) (g : Globals) (t : Thread) : Globals × Thread :=
  match t.pc with
  | .main_init => (g, t.goto .main_printf_started [.initialise_devices])
  | .main_printf_started =>
    (g, t.goto .main_printf_paddr
      [.printf "ELF-loader started on (HART %d) (NODES %d)\n"
        [t.hart_id, P.CONFIG_MAX_NUM_NODES]])
  | .main_printf_paddr =>
    (g, t.goto .re_load [.printf "  paddr=[%p..%p]\n" [P.text_start, (P.text_end : Int) - 1]])
  | .main_ret ret =>
    if 0 ≠ ret then
      (g, t.goto .abort_printf [.printf "ERROR: ELF-loader failed, code %d\n" [ret]])
    else
      (g, t.goto .abort_printf [.printf "ERROR: ELF-loader didn't hand over control\n" []])
  | _ => (g, t)

/-- Execute the statement at the program point of core `t` against the globals
`g`: dispatch to the function the program point belongs to.  The result is the
new globals and the new state of the core. -/
def step (P : Platform) (g : Globals) (t : Thread) : Globals × Thread :=
  match t.pc with
  | .main_init => main P g t
  | .main_printf_started => main P g t
  | .main_printf_paddr => main P g t
  | .main_ret _ => main P g t
  | .re_load => run_elfloader P g t
  | .re_err_load _ => run_elfloader P g t
  | .re_err_apps _ => run_elfloader P g t
  | .re_lock => run_elfloader P g t
  | .re_printf_entry => run_elfloader P g t
  | .re_unlock => run_elfloader P g t
  | .re_store_go => run_elfloader P g t
  | .re_loop _ => run_elfloader P g t
  | .re_printf _ => run_elfloader P g t
  | .re_call => run_elfloader P g t
  | .re_kernel_returned => run_elfloader P g t
  | .abort_printf => abort g t
  | .abort_idle => abort g t
  | .saw_lock => set_and_wait_for_ready P g t
  | .saw_printf => set_and_wait_for_ready P g t
  | .saw_store => set_and_wait_for_ready P g t
  | .saw_unlock => set_and_wait_for_ready P g t
  | .saw_poll _ => set_and_wait_for_ready P g t
  | .se_wait_go => secondary_entry P g t
  | .se_lock => secondary_entry P g t
  | .se_printf => secondary_entry P g t
  | .se_unlock => secondary_entry P g t
  | .se_enable_vm => secondary_entry P g t
  | .se_call => secondary_entry P g t
  | .in_kernel => (g, t)
  | .returned => (g, t)
  | .fault => (g, t)

/-- The shared globals together with all cores of a boot episode. -/
structure Sys where
  g : Globals
  threads : List Thread
deriving DecidableEq, Repr

/-- Core number `i` executes one statement (nothing happens if there is no such
core). -/
def Sys.step (P : Platform) (s : Sys) (i : Nat) : Sys :=
  match s.threads[i]? with
  | none => s
  | some t => { g := (Elfloader.step P s.g t).1, threads := s.threads.set i (Elfloader.step P s.g t).2 }

/-- Run the system along a schedule: the list of core numbers in the order in
which the cores execute their statements. -/
def Sys.run (P : Platform) (s : Sys) : List Nat → Sys
  | [] => s
  | i :: sched => Sys.run P (Sys.step P s i) sched

/-- Initial values of the globals (C initialisers and zero-filled storage);
`core_ready` has `CONFIG_MAX_NUM_NODES` slots. -/
def Globals.init (P : Platform) : Globals :=
  { kernel_info := ⟨0, 0, 0, 0⟩, user_info := ⟨0, 0, 0, 0⟩, dtb := 0, dtb_size := 0,
    secondary_go := 0, next_logical_core_id := 1, mutex := 0,
    core_ready := List.replicate P.CONFIG_MAX_NUM_NODES 0 }

/-- The primary core entering `main(hart_id, bootloader_dtb)`. -/
def main_thread (hart_id : Int) (bootloader_dtb : Nat) : Thread :=
  { pc := .main_init, hart_id := hart_id, core_id := 0, bootloader_dtb := bootloader_dtb,
    ra := .returned, log := [] }

/-- A secondary core entering `secondary_entry(hart_id, core_id)`. -/
def secondary_thread (ids : Int × Int) : Thread :=
  { pc := .se_wait_go, hart_id := ids.1, core_id := ids.2, bootloader_dtb := 0,
    ra := .returned, log := [] }

/-- A core entering `set_and_wait_for_ready(hart_id, core_id)` directly; when
the call returns the core is at `returned`. -/
def barrier_thread (hart_id core_id : Int) : Thread :=
  { pc := .saw_lock, hart_id := hart_id, core_id := core_id, bootloader_dtb := 0,
    ra := .returned, log := [] }

/-- A boot episode: core 0 of the schedule is the primary running `main`, the
others are secondaries running `secondary_entry` with the given
`(hart_id, core_id)` pairs (the pairs the trampoline `secondary_harts` hands
over; a core that never comes up is simply not in the list).  A secondary may be
scheduled at any time; until `secondary_go` is published it only spins on
line 148. -/
def boot (P : Platform) (hart_id : Int) (bootloader_dtb : Nat) (secs : List (Int × Int)) : Sys :=
  { g := Globals.init P,
    threads := main_thread hart_id bootloader_dtb :: secs.map secondary_thread }

/-- The barrier on its own: `CONFIG_MAX_NUM_NODES` cores, core `i` calling
`set_and_wait_for_ready(hart i, i)`. -/
def barrier_sys (P : Platform) (hart : Nat → Int) : Sys :=
  { g := Globals.init P,
    threads := (List.range P.CONFIG_MAX_NUM_NODES).map
      (fun i => barrier_thread (hart i) (i : Int)) }

/-- Run `n` consecutive statements of one core with no other core running. -/
def run_solo (P : Platform) : Nat → Globals → Thread → Globals × Thread
  | 0, g, t => (g, t)
  | n + 1, g, t => run_solo P n (step P g t).1 (step P g t).2

/-- A test platform: the loader succeeds with the image descriptors of the
spec scenario and the kernel never returns. -/
def scenario (N : Nat) : Platform :=
  { CONFIG_MAX_NUM_NODES := N, hsm_exists := true, text_start := 0x200000, text_end := 0x210000,
    load_images := fun _ _ =>
      { ret := 0, num_apps := 1,
        kernel_info := ⟨0x90000000, 0x90100000, 0x100000000, 0x190000000⟩,
        user_info := ⟨0x1000, 0x2000, 0x0, 0x1000⟩, dtb := 0x3000, dtb_size := 0x400 },
    kernel_returns := fun _ _ => false }


/-- A test platform like `scenario`, except that the kernel hands control back
to its caller. -/
def returning_kernel (N : Nat) : Platform :=
  { scenario N with kernel_returns := fun _ _ => true }

/-- Recogniser for diagnostic output. -/
def Event.is_printf : Event → Bool
  | .printf _ _ => true
  | _ => false

/-- Recogniser for the indirect call into the kernel. -/
def Event.is_kernel_entry : Event → Bool
  | .kernel_entry _ _ => true
  | _ => false

/-- Recogniser for calls of the core-start primitive. -/
def Event.is_hart_start : Event → Bool
  | .sbi_hart_start _ _ _ => true
  | _ => false

/-- Recogniser for stores to `secondary_go`. -/
def Event.is_store_go : Event → Bool
  | .store_secondary_go _ => true
  | _ => false

/-- A test platform whose image loader fails with the given status and app
count. -/
def failing_loader (N : Nat) (ret : Int) (num_apps : Nat) : Platform :=
  { scenario N with
    load_images := fun _ _ =>
      { ret := ret, num_apps := num_apps, kernel_info := ⟨0, 0, 0, 0⟩,
        user_info := ⟨0, 0, 0, 0⟩, dtb := 0, dtb_size := 0 } }

/-- Recogniser for the call of `set_and_wait_for_ready`. -/
def Event.is_barrier_call : Event → Bool
  | .call_set_and_wait_for_ready _ _ => true
  | _ => false

/-- Target address of a kernel call. -/
def Event.target : Event → Option Nat
  | .kernel_entry target _ => some target
  | _ => none

/-- Slot `j` of `core_ready` exists and holds a non-zero value. -/
def slot_set (g : Globals) (j : Nat) : Prop :=
  ∃ v, g.core_ready[j]? = some v ∧ v ≠ 0

/-- What is known about core `i` of `barrier_sys` at every moment: it runs
`set_and_wait_for_ready(_, i)`; its slot is non-zero only if its own store is
in its log; while it polls slot `k` all earlier slots have been seen non-zero;
and once it has returned all slots are non-zero. -/
def BarrierInv (P : Platform) (g : Globals) (i : Nat) (t : Thread) : Prop :=
  t.core_id = (i : Int) ∧ t.ra = .returned ∧ i < P.CONFIG_MAX_NUM_NODES ∧
  (slot_set g i → Event.store_core_ready (i : Int) 1 ∈ t.log) ∧
  match t.pc with
  | .saw_lock => True
  | .saw_printf => True
  | .saw_store => True
  | .saw_unlock => True
  | .saw_poll k => ∀ j, j < k → slot_set g j
  | .returned => ∀ j, j < P.CONFIG_MAX_NUM_NODES → slot_set g j
  | _ => False

/-- Invariant of `barrier_sys` along every schedule. -/
def BarrierSysInv (P : Platform) (s : Sys) : Prop :=
  s.g.core_ready.length = P.CONFIG_MAX_NUM_NODES ∧
  s.threads.length = P.CONFIG_MAX_NUM_NODES ∧
  ∀ i t, s.threads[i]? = some t → BarrierInv P s.g i t

/-! ## The boot episode: what each program point knows -/

/-- The two tests `run_elfloader` makes on the outcome of `load_images`
(lines 89 and 94) both pass. -/
def load_ok (P : Platform) (blob : Nat) : Prop :=
  (P.load_images 1 blob).ret = 0 ∧ (P.load_images 1 blob).num_apps = 1

/-- The globals written by `load_images` hold what the loader reported. -/
def loaded (P : Platform) (blob : Nat) (g : Globals) : Prop :=
  g.kernel_info = (P.load_images 1 blob).kernel_info ∧
  g.user_info = (P.load_images 1 blob).user_info ∧
  g.dtb = (P.load_images 1 blob).dtb ∧
  g.dtb_size = (P.load_images 1 blob).dtb_size

/-- The first six arguments of every kernel call, taken from the load result. -/
def handoff_args (r : LoadResult) : List Int :=
  [(r.user_info.phys_region_start : Int), r.user_info.phys_region_end,
    r.user_info.phys_virt_offset, r.user_info.virt_entry, r.dtb, r.dtb_size]

/-- The kernel call made by the primary core. -/
def primary_handoff (P : Platform) (hart : Int) (blob : Nat) : Event :=
  .kernel_entry (P.load_images 1 blob).kernel_info.phys_region_start
    (handoff_args (P.load_images 1 blob)
      ++ (if 1 < P.CONFIG_MAX_NUM_NODES then [hart, 0] else []))

/-- The kernel call made by a secondary core. -/
def secondary_handoff (P : Platform) (blob : Nat) (hart core : Int) : Event :=
  .kernel_entry (P.load_images 1 blob).kernel_info.virt_entry
    (handoff_args (P.load_images 1 blob) ++ [hart, core])

/-- The `sbi_hart_start` calls of the first `n` iterations of the loop on lines
110-115: iteration `k` (counting from 1) starts hart `k` unless `k` is the
primary's own hart id. -/
def hart_starts (hart : Int) : Nat → List Event
  | 0 => []
  | n + 1 => hart_starts hart n ++
      (if ((n + 1 : Nat) : Int) ≠ hart then
        [.sbi_hart_start ((n + 1 : Nat) : Int) .secondary_harts ((n + 1 : Nat) : Int)]
      else [])

/-- The first `k` of the diagnostic lines 121-125. -/
def jump_printfs (kernel_info : image_info) : Nat → List Event
  | 0 => []
  | k + 1 => jump_printfs kernel_info k ++ [jump_printf kernel_info k]

/-- Number of iterations of the start loop: `CONFIG_MAX_NUM_NODES` when
`hsm_exists`, none otherwise. -/
def loop_end (P : Platform) : Nat :=
  if P.hsm_exists = true then P.CONFIG_MAX_NUM_NODES else 0

/-- Log of `main` up to the call of `run_elfloader`. -/
def log_main (P : Platform) (hart : Int) : List Event :=
  [.initialise_devices,
   .printf "ELF-loader started on (HART %d) (NODES %d)\n" [hart, P.CONFIG_MAX_NUM_NODES],
   .printf "  paddr=[%p..%p]\n" [P.text_start, (P.text_end : Int) - 1]]

/-- Log after `load_images` has been called. -/
def log_loaded (P : Platform) (hart : Int) (blob : Nat) : List Event :=
  log_main P hart ++ [.load_images 1 blob]

/-- Log after `secondary_go` has been published. -/
def log_go (P : Platform) (hart : Int) (blob : Nat) : List Event :=
  log_loaded P hart blob ++ [.printf "Main entry hart_id:%d\n" [hart], .store_secondary_go 1]

/-- Log at the call of `set_and_wait_for_ready(hart_id, 0)`. -/
def log_called (P : Platform) (hart : Int) (blob : Nat) : List Event :=
  log_go P hart blob ++ hart_starts hart (loop_end P) ++ [.call_set_and_wait_for_ready hart 0]

/-- Log after the primary has set its own `core_ready` slot. -/
def log_stored (P : Platform) (hart : Int) (blob : Nat) : List Event :=
  log_called P hart blob ++
    [.printf "Hart ID %d core ID %d\n" [hart, 0], .store_core_ready 0 1]

/-- Log when line 121 is reached: through the barrier in a multi-core
configuration, straight from the load otherwise. -/
def log_ready (P : Platform) (hart : Int) (blob : Nat) : List Event :=
  if 1 < P.CONFIG_MAX_NUM_NODES then log_stored P hart blob ++ [.return_set_and_wait_for_ready]
  else log_loaded P hart blob

/-- Log after `k` of the diagnostic lines 121-125. -/
def log_jump (P : Platform) (hart : Int) (blob : Nat) (k : Nat) : List Event :=
  log_ready P hart blob ++ jump_printfs (P.load_images 1 blob).kernel_info k

/-- Log after the kernel call. -/
def log_kernel (P : Platform) (hart : Int) (blob : Nat) : List Event :=
  log_jump P hart blob 5 ++ [primary_handoff P hart blob]

/-- Log when `run_elfloader` returns to `main` (always with `-1`). -/
def log_ret (P : Platform) (hart : Int) (blob : Nat) : List Event :=
  if (P.load_images 1 blob).ret ≠ 0 then
    log_loaded P hart blob ++
      [.printf "ERROR: image loading failed, code %d\n" [(P.load_images 1 blob).ret]]
  else if (P.load_images 1 blob).num_apps ≠ 1 then
    log_loaded P hart blob ++
      [.printf "ERROR: expected to load just 1 app, actually loaded %u apps\n"
        [((P.load_images 1 blob).num_apps : Int)]]
  else
    log_kernel P hart blob ++ [.printf "ERROR: Kernel returned back to the ELF Loader\n" []]

/-- Log when `main` calls `abort`. -/
def log_failed (P : Platform) (hart : Int) (blob : Nat) : List Event :=
  log_ret P hart blob ++ [.printf "ERROR: ELF-loader failed, code %d\n" [-1]]

/-- Log inside the idle loop of `abort`. -/
def log_halt (P : Platform) (hart : Int) (blob : Nat) : List Event :=
  log_failed P hart blob ++ [.printf "HALT due to call to abort()\n" []]

/-- Whether the kernel hands control back from the primary's call. -/
def primary_kernel_returns (P : Platform) (hart : Int) (blob : Nat) : Prop :=
  P.kernel_returns (P.load_images 1 blob).kernel_info.phys_region_start
    (handoff_args (P.load_images 1 blob)
      ++ (if 1 < P.CONFIG_MAX_NUM_NODES then [hart, 0] else [])) = true

/-- What the primary core knows at each program point of `main(hart, blob)`:
which tests it has passed and the exact log it has produced.  Program points
of `secondary_entry`, `returned` and `fault` are never reached. -/
def PrimaryInv (P : Platform) (hart : Int) (blob : Nat) (t : Thread) : Prop :=
  t.hart_id = hart ∧ t.bootloader_dtb = blob ∧
  match t.pc with
  | .main_init => t.log = []
  | .main_printf_started => t.log = [.initialise_devices]
  | .main_printf_paddr =>
    t.log = [.initialise_devices,
      .printf "ELF-loader started on (HART %d) (NODES %d)\n" [hart, P.CONFIG_MAX_NUM_NODES]]
  | .re_load => t.log = log_main P hart
  | .re_err_load ret =>
    ret = (P.load_images 1 blob).ret ∧ (P.load_images 1 blob).ret ≠ 0 ∧
      t.log = log_loaded P hart blob
  | .re_err_apps n =>
    (P.load_images 1 blob).ret = 0 ∧ n = (P.load_images 1 blob).num_apps ∧ n ≠ 1 ∧
      t.log = log_loaded P hart blob
  | .re_lock => load_ok P blob ∧ 1 < P.CONFIG_MAX_NUM_NODES ∧ t.log = log_loaded P hart blob
  | .re_printf_entry =>
    load_ok P blob ∧ 1 < P.CONFIG_MAX_NUM_NODES ∧ t.log = log_loaded P hart blob
  | .re_unlock =>
    load_ok P blob ∧ 1 < P.CONFIG_MAX_NUM_NODES ∧
      t.log = log_loaded P hart blob ++ [.printf "Main entry hart_id:%d\n" [hart]]
  | .re_store_go =>
    load_ok P blob ∧ 1 < P.CONFIG_MAX_NUM_NODES ∧
      t.log = log_loaded P hart blob ++ [.printf "Main entry hart_id:%d\n" [hart]]
  | .re_loop i =>
    load_ok P blob ∧ 1 < P.CONFIG_MAX_NUM_NODES ∧ i ≤ loop_end P ∧
      t.log = log_go P hart blob ++ hart_starts hart i
  | .saw_lock =>
    load_ok P blob ∧ 1 < P.CONFIG_MAX_NUM_NODES ∧ t.core_id = 0 ∧ t.ra = .re_printf 0 ∧
      t.log = log_called P hart blob
  | .saw_printf =>
    load_ok P blob ∧ 1 < P.CONFIG_MAX_NUM_NODES ∧ t.core_id = 0 ∧ t.ra = .re_printf 0 ∧
      t.log = log_called P hart blob
  | .saw_store =>
    load_ok P blob ∧ 1 < P.CONFIG_MAX_NUM_NODES ∧ t.core_id = 0 ∧ t.ra = .re_printf 0 ∧
      t.log = log_called P hart blob ++ [.printf "Hart ID %d core ID %d\n" [hart, 0]]
  | .saw_unlock =>
    load_ok P blob ∧ 1 < P.CONFIG_MAX_NUM_NODES ∧ t.core_id = 0 ∧ t.ra = .re_printf 0 ∧
      t.log = log_stored P hart blob
  | .saw_poll i =>
    load_ok P blob ∧ 1 < P.CONFIG_MAX_NUM_NODES ∧ t.core_id = 0 ∧ t.ra = .re_printf 0 ∧
      i ≤ P.CONFIG_MAX_NUM_NODES ∧ t.log = log_stored P hart blob
  | .re_printf k => load_ok P blob ∧ k ≤ 4 ∧ t.log = log_jump P hart blob k
  | .re_call => load_ok P blob ∧ t.log = log_jump P hart blob 5
  | .in_kernel =>
    load_ok P blob ∧ ¬ primary_kernel_returns P hart blob ∧ t.log = log_kernel P hart blob
  | .re_kernel_returned =>
    load_ok P blob ∧ primary_kernel_returns P hart blob ∧ t.log = log_kernel P hart blob
  | .main_ret ret =>
    ret = -1 ∧ (load_ok P blob → primary_kernel_returns P hart blob) ∧
      t.log = log_ret P hart blob
  | .abort_printf =>
    (load_ok P blob → primary_kernel_returns P hart blob) ∧ t.log = log_failed P hart blob
  | .abort_idle =>
    (load_ok P blob → primary_kernel_returns P hart blob) ∧ t.log = log_halt P hart blob
  | _ => False

/-- Program points of the primary before `load_images` has run. -/
def before_load : PC → Bool
  | .main_init => true
  | .main_printf_started => true
  | .main_printf_paddr => true
  | .re_load => true
  | _ => false

/-- Program points of the primary up to and including the store to
`secondary_go` (which has therefore not been executed yet). -/
def pre_go : PC → Bool
  | .main_init => true
  | .main_printf_started => true
  | .main_printf_paddr => true
  | .re_load => true
  | .re_lock => true
  | .re_printf_entry => true
  | .re_unlock => true
  | .re_store_go => true
  | _ => false

/-- How the globals relate to the program point `pc` of the primary: the image
descriptors are the loader's once `load_images` has run; `secondary_go` is
non-zero exactly when the primary has passed line 106; and before that the
mutex is only ever held by the primary itself. -/
def GlobInv (P : Platform) (blob : Nat) (g : Globals) (pc : PC) : Prop :=
  g.core_ready.length = P.CONFIG_MAX_NUM_NODES ∧
  (before_load pc = false → loaded P blob g) ∧
  (g.secondary_go ≠ 0 ↔ (load_ok P blob ∧ 1 < P.CONFIG_MAX_NUM_NODES ∧ pre_go pc = false)) ∧
  (g.secondary_go = 0 → pc ≠ .re_printf_entry → pc ≠ .re_unlock → g.mutex = 0)

/-- Log of a secondary core at its call of `set_and_wait_for_ready`. -/
def slog_called (hart core : Int) : List Event :=
  [.printf "Secondary entry hart_id:%d core_id:%d\n" [hart, core],
   .call_set_and_wait_for_ready hart core]

/-- Log of a secondary core after the store to its `core_ready` slot. -/
def slog_stored (hart core : Int) : List Event :=
  slog_called hart core ++
    [.printf "Hart ID %d core ID %d\n" [hart, core], .store_core_ready core 1]

/-- Log of a secondary core at its kernel call. -/
def slog_ready (hart core : Int) : List Event :=
  slog_stored hart core ++ [.return_set_and_wait_for_ready, .enable_virtual_memory]

/-- Whether the kernel hands control back from a secondary's call. -/
def secondary_kernel_returns (P : Platform) (blob : Nat) (hart core : Int) : Prop :=
  P.kernel_returns (P.load_images 1 blob).kernel_info.virt_entry
    (handoff_args (P.load_images 1 blob) ++ [hart, core]) = true

/-- What a secondary core knows at each program point of
`secondary_entry(hart_id, core_id)`: it has left line 148 only if
`secondary_go` is non-zero, and its log is determined by where it is. -/
def SecondaryInv (P : Platform) (blob : Nat) (g : Globals) (t : Thread) : Prop :=
  (t.pc ≠ .se_wait_go → g.secondary_go ≠ 0) ∧
  match t.pc with
  | .se_wait_go => t.log = []
  | .se_lock => t.log = []
  | .se_printf => t.log = []
  | .se_unlock =>
    t.log = [.printf "Secondary entry hart_id:%d core_id:%d\n" [t.hart_id, t.core_id]]
  | .saw_lock => t.ra = .se_enable_vm ∧ t.log = slog_called t.hart_id t.core_id
  | .saw_printf => t.ra = .se_enable_vm ∧ t.log = slog_called t.hart_id t.core_id
  | .saw_store =>
    t.ra = .se_enable_vm ∧
      t.log = slog_called t.hart_id t.core_id ++
        [.printf "Hart ID %d core ID %d\n" [t.hart_id, t.core_id]]
  | .saw_unlock => t.ra = .se_enable_vm ∧ t.log = slog_stored t.hart_id t.core_id
  | .saw_poll _ => t.ra = .se_enable_vm ∧ t.log = slog_stored t.hart_id t.core_id
  | .fault => t.log = slog_stored t.hart_id t.core_id
  | .se_enable_vm =>
    t.log = slog_stored t.hart_id t.core_id ++ [.return_set_and_wait_for_ready]
  | .se_call => t.log = slog_ready t.hart_id t.core_id
  | .in_kernel =>
    ¬ secondary_kernel_returns P blob t.hart_id t.core_id ∧
      t.log = slog_ready t.hart_id t.core_id ++ [secondary_handoff P blob t.hart_id t.core_id]
  | .returned =>
    secondary_kernel_returns P blob t.hart_id t.core_id ∧
      t.log = slog_ready t.hart_id t.core_id ++ [secondary_handoff P blob t.hart_id t.core_id]
  | _ => False

/-- Invariant of a boot episode: core 0 is the primary, all others are
secondaries, and the globals agree with the primary's program point. -/
def BootInv (P : Platform) (hart : Int) (blob : Nat) (s : Sys) : Prop :=
  ∃ t0 rest, s.threads = t0 :: rest ∧ PrimaryInv P hart blob t0 ∧
    GlobInv P blob s.g t0.pc ∧ ∀ t ∈ rest, SecondaryInv P blob s.g t

/-- The primary core of a system: core 0 of the schedule. -/
def Sys.primary (s : Sys) : Option Thread := s.threads.head?

/-- All cores of a system other than core 0. -/
def Sys.secondaries (s : Sys) : List Thread := s.threads.tail

instance load_ok_decidable (P : Platform) (blob : Nat) : Decidable (load_ok P blob) := by
  unfold load_ok
  infer_instance

/-- Position of line 121 on the primary's path: the statements executed
before it when nothing blocks. -/
def base_rank (P : Platform) : Nat :=
  if 1 < P.CONFIG_MAX_NUM_NODES then 14 + loop_end P + P.CONFIG_MAX_NUM_NODES else 4

/-- Position of a program point on the path of the primary core through
`main`: the number of statements the primary has executed when it arrives
there, not counting repetitions of a spinning statement. -/
def rank (P : Platform) (blob : Nat) : PC → Nat
  | .main_init => 0
  | .main_printf_started => 1
  | .main_printf_paddr => 2
  | .re_load => 3
  | .re_err_load _ => 4
  | .re_err_apps _ => 4
  | .re_lock => 4
  | .re_printf_entry => 5
  | .re_unlock => 6
  | .re_store_go => 7
  | .re_loop i => 8 + i
  | .saw_lock => 9 + loop_end P
  | .saw_printf => 10 + loop_end P
  | .saw_store => 11 + loop_end P
  | .saw_unlock => 12 + loop_end P
  | .saw_poll i => 13 + loop_end P + i
  | .re_printf k => base_rank P + k
  | .re_call => base_rank P + 5
  | .in_kernel => base_rank P + 6
  | .re_kernel_returned => base_rank P + 6
  | .main_ret _ => if load_ok P blob then base_rank P + 7 else 5
  | .abort_printf => if load_ok P blob then base_rank P + 8 else 6
  | .abort_idle => if load_ok P blob then base_rank P + 9 else 7
  | _ => 0

/-- Program points at which the primary may stay for more than one step: the
two waits of `set_and_wait_for_ready` and the two final states. -/
def blocking : PC → Bool
  | .saw_lock => true
  | .saw_poll _ => true
  | .abort_idle => true
  | .in_kernel => true
  | _ => false

/-- Program points of the primary that lie after its kernel call. -/
def called_kernel (P : Platform) (blob : Nat) : PC → Bool
  | .in_kernel => true
  | .re_kernel_returned => true
  | .main_ret _ => decide (load_ok P blob)
  | .abort_printf => decide (load_ok P blob)
  | .abort_idle => decide (load_ok P blob)
  | _ => false

/-- Number of iterations of the start loop the primary has completed when it
is at a given program point. -/
def iterations (P : Platform) (blob : Nat) : PC → Nat
  | .re_loop i => i
  | .saw_lock => loop_end P
  | .saw_printf => loop_end P
  | .saw_store => loop_end P
  | .saw_unlock => loop_end P
  | .saw_poll _ => loop_end P
  | .re_printf _ => if 1 < P.CONFIG_MAX_NUM_NODES then loop_end P else 0
  | .re_call => if 1 < P.CONFIG_MAX_NUM_NODES then loop_end P else 0
  | .in_kernel => if 1 < P.CONFIG_MAX_NUM_NODES then loop_end P else 0
  | .re_kernel_returned => if 1 < P.CONFIG_MAX_NUM_NODES then loop_end P else 0
  | .main_ret _ => if load_ok P blob ∧ 1 < P.CONFIG_MAX_NUM_NODES then loop_end P else 0
  | .abort_printf => if load_ok P blob ∧ 1 < P.CONFIG_MAX_NUM_NODES then loop_end P else 0
  | .abort_idle => if load_ok P blob ∧ 1 < P.CONFIG_MAX_NUM_NODES then loop_end P else 0
  | _ => 0

/-- Number of `core_ready` slots the primary has read as non-zero in the
polling loop of `set_and_wait_for_ready` (lines 65-67) when it is at a given
program point: `i` while it polls slot `i`, all `CONFIG_MAX_NUM_NODES` once the
call has returned in a multi-core configuration, none otherwise. -/
def passed (P : Platform) (blob : Nat) : PC → Nat
  | .saw_poll i => i
  | .re_printf _ => if 1 < P.CONFIG_MAX_NUM_NODES then P.CONFIG_MAX_NUM_NODES else 0
  | .re_call => if 1 < P.CONFIG_MAX_NUM_NODES then P.CONFIG_MAX_NUM_NODES else 0
  | .in_kernel => if 1 < P.CONFIG_MAX_NUM_NODES then P.CONFIG_MAX_NUM_NODES else 0
  | .re_kernel_returned => if 1 < P.CONFIG_MAX_NUM_NODES then P.CONFIG_MAX_NUM_NODES else 0
  | .main_ret _ =>
    if load_ok P blob ∧ 1 < P.CONFIG_MAX_NUM_NODES then P.CONFIG_MAX_NUM_NODES else 0
  | .abort_printf =>
    if load_ok P blob ∧ 1 < P.CONFIG_MAX_NUM_NODES then P.CONFIG_MAX_NUM_NODES else 0
  | .abort_idle =>
    if load_ok P blob ∧ 1 < P.CONFIG_MAX_NUM_NODES then P.CONFIG_MAX_NUM_NODES else 0
  | _ => 0
/-! ## Basic facts about `step`, `Sys.step` and `Sys.run` -/

theorem step_go_mono (P : Platform) (g : Globals) (t : Thread) (h : g.secondary_go ≠ 0) :
    (step P g t).1.secondary_go ≠ 0 := by
  cases hpc : t.pc <;> simp only [step, main, run_elfloader, set_and_wait_for_ready, secondary_entry, abort, hpc] <;> (try split_ifs) <;> (try split) <;>
    (try split_ifs) <;> simp_all

theorem step_core_ready (P : Platform) (g : Globals) (t : Thread) :
    (step P g t).1.core_ready = g.core_ready ∨
      (t.pc = .saw_store ∧ 0 ≤ t.core_id ∧ t.core_id.toNat < g.core_ready.length ∧
        (step P g t).1.core_ready = g.core_ready.set t.core_id.toNat 1) := by
  cases hpc : t.pc <;> simp only [step, main, run_elfloader, set_and_wait_for_ready, secondary_entry, abort, hpc] <;> (try split_ifs) <;> (try split) <;>
    (try split_ifs) <;> simp_all

theorem step_length (P : Platform) (g : Globals) (t : Thread) :
    (step P g t).1.core_ready.length = g.core_ready.length := by
  rcases step_core_ready P g t with h | ⟨_, _, _, h⟩ <;> simp [h]

theorem step_slot_mono (P : Platform) (g : Globals) (t : Thread) (j : Nat)
    (h : ∃ v, g.core_ready[j]? = some v ∧ v ≠ 0) :
    ∃ w, (step P g t).1.core_ready[j]? = some w ∧ w ≠ 0 := by
  rcases step_core_ready P g t with e | ⟨_, _, hlt, e⟩
  · rw [e]; exact h
  · rw [e]
    obtain ⟨v, hv, hv0⟩ := h
    by_cases hj : t.core_id.toNat = j
    · subst hj
      exact ⟨1, by simp [List.getElem?_set_self hlt], by decide⟩
    · exact ⟨v, by rw [List.getElem?_set_ne hj]; exact hv, hv0⟩

theorem step_binary (P : Platform) (g : Globals) (t : Thread)
    (h : ∀ v ∈ g.core_ready, v = 0 ∨ v = 1) :
    ∀ v ∈ (step P g t).1.core_ready, v = 0 ∨ v = 1 := by
  rcases step_core_ready P g t with e | ⟨_, _, _, e⟩
  · rw [e]; exact h
  · rw [e]
    intro v hv
    rcases List.mem_or_eq_of_mem_set hv with hv | hv
    · exact h v hv
    · exact Or.inr hv

theorem sys_step_preserves (P : Platform) (I : Globals → Prop)
    (hI : ∀ g t, I g → I (step P g t).1) (s : Sys) (i : Nat) (h : I s.g) :
    I (Sys.step P s i).g := by
  unfold Sys.step
  split
  · exact h
  · exact hI _ _ h

theorem sys_run_preserves (P : Platform) (I : Globals → Prop)
    (hI : ∀ g t, I g → I (step P g t).1) (sched : List Nat) :
    ∀ s : Sys, I s.g → I (Sys.run P s sched).g := by
  induction sched with
  | nil => intro s h; exact h
  | cons i rest ih => intro s h; exact ih _ (sys_step_preserves P I hI s i h)

theorem sys_run_append (P : Platform) (a b : List Nat) :
    ∀ s : Sys, Sys.run P s (a ++ b) = Sys.run P (Sys.run P s a) b := by
  induction a with
  | nil => intro s; rfl
  | cons i rest ih => intro s; exact ih _

/-! ## Shared flags are write-once -/

/-- C8: starting from the initial globals, with any collection of cores at any
program points of `boot.c` (so in particular the primary in
`main`/`run_elfloader` and secondaries in `secondary_entry`, all of which call
`set_and_wait_for_ready`), along every schedule: once `secondary_go` is
non-zero it stays non-zero, once a `core_ready` slot is non-zero it stays
non-zero, and executing the slot store `core_ready[core_id] = 1` on a slot that
is already set leaves the table unchanged. -/
theorem C8_flags_write_once (P : Platform) (threads : List Thread) (s1 s2 : List Nat) :
    (((Sys.run P { g := Globals.init P, threads := threads } s1).g.secondary_go ≠ 0 →
      (Sys.run P (Sys.run P { g := Globals.init P, threads := threads } s1) s2).g.secondary_go
        ≠ 0) ∧
    (∀ j : Nat,
      (∃ v, (Sys.run P { g := Globals.init P, threads := threads } s1).g.core_ready[j]? = some v
        ∧ v ≠ 0) →
      ∃ w, (Sys.run P (Sys.run P { g := Globals.init P, threads := threads } s1) s2).g.core_ready[j]?
        = some w ∧ w ≠ 0)) ∧
    (∀ t : Thread, t.pc = .saw_store →
      (∃ v, (Sys.run P { g := Globals.init P, threads := threads } s1).g.core_ready[t.core_id.toNat]?
        = some v ∧ v ≠ 0) →
      (step P (Sys.run P { g := Globals.init P, threads := threads } s1).g t).1.core_ready
        = (Sys.run P { g := Globals.init P, threads := threads } s1).g.core_ready) := by
  refine ⟨⟨?_, ?_⟩, ?_⟩
  · exact sys_run_preserves P (fun g => g.secondary_go ≠ 0) (step_go_mono P) s2 _
  · intro j
    exact sys_run_preserves P (fun g => ∃ v, g.core_ready[j]? = some v ∧ v ≠ 0)
      (fun g t => step_slot_mono P g t j) s2 _
  · intro t _ ⟨v, hv, hv0⟩
    have hbin : ∀ v ∈ (Sys.run P { g := Globals.init P, threads := threads } s1).g.core_ready,
        v = 0 ∨ v = 1 :=
      sys_run_preserves P (fun g => ∀ v ∈ g.core_ready, v = 0 ∨ v = 1) (step_binary P) s1
        { g := Globals.init P, threads := threads }
        (by intro v hv; simp [Globals.init] at hv; exact Or.inl hv.2)
    rcases step_core_ready P _ t with e | ⟨_, _, _, e⟩
    · exact e
    · rw [e]
      obtain ⟨hlt, hget⟩ := List.getElem?_eq_some.mp hv
      have h1 : v = 1 := by
        rcases hbin v (by rw [← hget]; exact List.getElem_mem _) with h | h
        · exact absurd h hv0
        · exact h
      apply List.ext_getElem?
      intro k
      by_cases hk : t.core_id.toNat = k
      · subst hk
        rw [List.getElem?_set_self hlt, hv, h1]
      · rw [List.getElem?_set_ne hk]

/-- C8 witness: in a two-core episode the primary publishes `secondary_go` after
eight statements, and the flag is still set after both cores have run on. -/
theorem C8_flags_write_once_witness :
    (Sys.run (scenario 2) (Sys.run (scenario 2)
        { g := Globals.init (scenario 2),
          threads := [main_thread 0 0, secondary_thread (1, 1)] }
        (List.replicate 8 0)) [1, 1, 0, 1, 0, 0]).g.secondary_go ≠ 0 :=
  (C8_flags_write_once (scenario 2) [main_thread 0 0, secondary_thread (1, 1)]
    (List.replicate 8 0) [1, 1, 0, 1, 0, 0]).1.1 (by decide)

/-! ## The write phase of `set_and_wait_for_ready` -/

/-- C10: let a core enter `set_and_wait_for_ready(hart_id, core_id)` with the
lock free and a `core_ready` table of `CONFIG_MAX_NUM_NODES` slots, and let it
run its write phase (lines 59-62) with no other core running.  If
`0 <= core_id < CONFIG_MAX_NUM_NODES`, the core arrives at the polling loop
with slot `core_id` equal to 1, every other slot, `secondary_go` and all other
globals unchanged, and the mutex released (0).  There is no bounds check: for
any other `core_id` the store `core_ready[core_id] = 1` is executed all the
same and lands outside the table. -/
theorem C10_write_phase_frame (P : Platform) (g : Globals) (t : Thread)
    (hpc : t.pc = .saw_lock) (hlen : g.core_ready.length = P.CONFIG_MAX_NUM_NODES)
    (hfree : g.mutex = 0) :
    ((0 ≤ t.core_id ∧ t.core_id < P.CONFIG_MAX_NUM_NODES) →
      (run_solo P 4 g t).2.pc = .saw_poll 0 ∧
      t.core_id.toNat < g.core_ready.length ∧
      (run_solo P 4 g t).1.core_ready = g.core_ready.set t.core_id.toNat 1 ∧
      (run_solo P 4 g t).1.core_ready[t.core_id.toNat]? = some 1 ∧
      (∀ j, j ≠ t.core_id.toNat →
        (run_solo P 4 g t).1.core_ready[j]? = g.core_ready[j]?) ∧
      (run_solo P 4 g t).1.secondary_go = g.secondary_go ∧
      (run_solo P 4 g t).1.mutex = 0 ∧
      (run_solo P 4 g t).1 = { g with core_ready := g.core_ready.set t.core_id.toNat 1 }) ∧
    (¬ (0 ≤ t.core_id ∧ t.core_id < P.CONFIG_MAX_NUM_NODES) →
      (run_solo P 3 g t).2.pc = .fault ∧
      (run_solo P 3 g t).2.log =
        t.log ++ [.printf "Hart ID %d core ID %d\n" [t.hart_id, t.core_id],
                  .store_core_ready t.core_id 1] ∧
      (run_solo P 3 g t).1.core_ready = g.core_ready) := by
  have hin : (0 ≤ t.core_id ∧ t.core_id.toNat < g.core_ready.length) ↔
      (0 ≤ t.core_id ∧ t.core_id < P.CONFIG_MAX_NUM_NODES) := by
    rw [hlen]
    constructor
    · rintro ⟨h0, h1⟩; exact ⟨h0, by omega⟩
    · rintro ⟨h0, h1⟩; exact ⟨h0, by omega⟩
  constructor
  · intro hr
    have hr' := hin.mpr hr
    have hlt : t.core_id.toNat < g.core_ready.length := hr'.2
    have e : run_solo P 4 g t =
        ({ g with core_ready := g.core_ready.set t.core_id.toNat 1 },
          { t with pc := .saw_poll 0,
                   log := t.log ++ [.printf "Hart ID %d core ID %d\n" [t.hart_id, t.core_id],
                                    .store_core_ready t.core_id 1] }) := by
      simp [run_solo, step, main, run_elfloader, set_and_wait_for_ready, secondary_entry, abort, hpc, hfree, Thread.goto, hr']
    rw [e]
    refine ⟨rfl, hlt, rfl, ?_, ?_, rfl, hfree, rfl⟩
    · simp [List.getElem?_set_self hlt]
    · intro j hj
      simp [List.getElem?_set_ne (Ne.symm hj)]
  · intro hr
    have hr' : ¬ (0 ≤ t.core_id ∧ t.core_id.toNat < g.core_ready.length) := fun h => hr (hin.mp h)
    simp [run_solo, step, main, run_elfloader, set_and_wait_for_ready, secondary_entry, abort, hpc, hfree, Thread.goto, hr']

/-- C10 witness: core id 1 of a two-core configuration. -/
theorem C10_write_phase_frame_witness :
    (run_solo (scenario 2) 4 (Globals.init (scenario 2)) (barrier_thread 7 1)).1
      = { Globals.init (scenario 2) with core_ready := [0, 1] } :=
  ((C10_write_phase_frame (scenario 2) (Globals.init (scenario 2)) (barrier_thread 7 1)
    rfl rfl rfl).1 (by decide)).2.2.2.2.2.2.2

/-! ## A kernel that returns on a secondary core -/

set_option maxRecDepth 100000 in
/-- C4 (as the code behaves): on a two-core platform whose kernel hands control
back, the secondary core `(hart_id, core_id) = (1, 1)` passes the barrier,
calls the kernel, and then `secondary_entry` simply ends: the core is at
`returned` (back in its caller), the kernel call is the last event of its log,
no diagnostic follows it and `abort` is never entered, although the core is
scheduled seven more times after the call (the primary has registered in the
barrier by then, after sixteen statements of its own). -/
theorem C4_secondary_entry_returns :
    ((Sys.run (returning_kernel 2) (boot (returning_kernel 2) 0 0 [(1, 1)])
        (List.replicate 16 0 ++ List.replicate 20 1)).threads[1]?).map
      (fun t => (t.pc, t.log.drop 5))
    = some (PC.returned,
        [Event.enable_virtual_memory,
         Event.kernel_entry 0x190000000 [0x1000, 0x2000, 0x0, 0x1000, 0x3000, 0x400, 1, 1]]) := by
  decide

/-! ## The readiness barrier -/

theorem slot_set_step (P : Platform) (g : Globals) (t : Thread) (j : Nat) (h : slot_set g j) :
    slot_set (step P g t).1 j :=
  step_slot_mono P g t j h

theorem barrierInv_self (P : Platform) (g : Globals) (i : Nat) (t : Thread)
    (hlen : g.core_ready.length = P.CONFIG_MAX_NUM_NODES) (h : BarrierInv P g i t) :
    BarrierInv P (step P g t).1 i (step P g t).2 := by
  obtain ⟨hc, hra, hi, hlog, hpc⟩ := h
  have hnat : t.core_id.toNat = i := by rw [hc]; simp
  cases hp : t.pc <;> rw [hp] at hpc <;> simp only [] at hpc
  case saw_lock =>
    refine ⟨?_, ?_, hi, ?_, ?_⟩ <;>
      simp only [step, main, run_elfloader, set_and_wait_for_ready, secondary_entry, abort, hp] <;> split_ifs <;> simp_all [Thread.goto, slot_set]
  case saw_printf =>
    refine ⟨?_, ?_, hi, ?_, ?_⟩ <;>
      simp_all [step, main, run_elfloader, set_and_wait_for_ready, secondary_entry, abort, hp, Thread.goto, slot_set]
  case saw_store =>
    have hin : 0 ≤ t.core_id ∧ t.core_id.toNat < g.core_ready.length := by
      rw [hc, hlen]; simp [hi]
    refine ⟨?_, ?_, hi, ?_, ?_⟩ <;>
      simp_all [step, main, run_elfloader, set_and_wait_for_ready, secondary_entry, abort, hp, Thread.goto, slot_set]
  case saw_unlock =>
    refine ⟨?_, ?_, hi, ?_, ?_⟩ <;>
      simp_all [step, main, run_elfloader, set_and_wait_for_ready, secondary_entry, abort, hp, Thread.goto, slot_set]
  case saw_poll k =>
    by_cases hk : k < P.CONFIG_MAX_NUM_NODES
    · have hklen : k < g.core_ready.length := by rw [hlen]; exact hk
      have hget : g.core_ready[k]? = some g.core_ready[k] := List.getElem?_eq_getElem hklen
      by_cases hv : g.core_ready[k] = 0
      · have e : step P g t = (g, t) := by simp [step, main, run_elfloader, set_and_wait_for_ready, secondary_entry, abort, hp, hk, hget, hv]
        rw [e]
        exact ⟨hc, hra, hi, hlog, by rw [hp]; exact hpc⟩
      · have e : step P g t = (g, t.goto (.saw_poll (k + 1)) []) := by
          simp [step, main, run_elfloader, set_and_wait_for_ready, secondary_entry, abort, hp, hk, hget, hv]
        rw [e]
        refine ⟨hc, hra, hi, by simpa [Thread.goto] using hlog, ?_⟩
        show ∀ j, j < k + 1 → slot_set g j
        intro j hj
        by_cases hjk : j = k
        · subst hjk; exact ⟨_, hget, hv⟩
        · exact hpc j (by omega)
    · have e : step P g t = (g, t.goto .returned [.return_set_and_wait_for_ready]) := by
        simp [step, main, run_elfloader, set_and_wait_for_ready, secondary_entry, abort, hp, hk, hra]
      rw [e]
      refine ⟨hc, hra, hi, ?_, ?_⟩
      · intro h; simp [Thread.goto, hlog h]
      · show ∀ j, j < P.CONFIG_MAX_NUM_NODES → slot_set g j
        intro j hj
        exact hpc j (by omega)
  case returned =>
    have e : step P g t = (g, t) := by simp [step, main, run_elfloader, set_and_wait_for_ready, secondary_entry, abort, hp]
    rw [e]
    exact ⟨hc, hra, hi, hlog, by rw [hp]; exact hpc⟩

theorem barrierInv_frame (P : Platform) (g : Globals) (i k : Nat) (t u : Thread)
    (hik : k ≠ i) (hu : u.core_id = (k : Int)) (h : BarrierInv P g i t) :
    BarrierInv P (step P g u).1 i t := by
  obtain ⟨hc, hra, hi, hlog, hpc⟩ := h
  have hslot : slot_set (step P g u).1 i → slot_set g i := by
    rcases step_core_ready P g u with e | ⟨_, _, _, e⟩
    · unfold slot_set; rw [e]; exact id
    · unfold slot_set; rw [e]
      have : u.core_id.toNat ≠ i := by rw [hu]; simpa using hik
      rw [List.getElem?_set_ne this]; exact id
  refine ⟨hc, hra, hi, fun h => hlog (hslot h), ?_⟩
  cases hp : t.pc <;> rw [hp] at hpc <;> simp only [] at hpc ⊢
  case saw_poll m => exact fun j hj => slot_set_step P g u j (hpc j hj)
  case returned => exact fun j hj => slot_set_step P g u j (hpc j hj)

theorem barrierSysInv_step (P : Platform) (s : Sys) (k : Nat) (h : BarrierSysInv P s) :
    BarrierSysInv P (Sys.step P s k) := by
  obtain ⟨hlen, hth, hall⟩ := h
  unfold Sys.step
  cases hk : s.threads[k]? with
  | none => exact ⟨hlen, hth, hall⟩
  | some tk =>
    have hkinv := hall k tk hk
    refine ⟨by simp [step_length, hlen], by simp [hth], ?_⟩
    intro i t hit
    simp only at hit
    by_cases hik : k = i
    · subst hik
      have hklt : k < s.threads.length := (List.getElem?_eq_some.mp hk).1
      rw [List.getElem?_set_self hklt] at hit
      cases hit
      exact barrierInv_self P s.g k tk hlen hkinv
    · rw [List.getElem?_set_ne hik] at hit
      exact barrierInv_frame P s.g i k t tk hik hkinv.1 (hall i t hit)

theorem barrierSysInv_run (P : Platform) (sched : List Nat) :
    ∀ s : Sys, BarrierSysInv P s → BarrierSysInv P (Sys.run P s sched) := by
  induction sched with
  | nil => intro s h; exact h
  | cons i rest ih => intro s h; exact ih _ (barrierSysInv_step P s i h)

theorem barrierSysInv_init (P : Platform) (hart : Nat → Int) :
    BarrierSysInv P (barrier_sys P hart) := by
  refine ⟨by simp [barrier_sys, Globals.init], by simp [barrier_sys], ?_⟩
  intro i t hit
  simp only [barrier_sys, List.getElem?_map] at hit
  cases hr : (List.range P.CONFIG_MAX_NUM_NODES)[i]? with
  | none => rw [hr] at hit; cases hit
  | some m =>
    rw [hr] at hit
    obtain ⟨hlt, hm⟩ := List.getElem?_eq_some.mp hr
    simp at hlt hm
    subst hm
    rw [Option.map_some'] at hit
    cases hit
    refine ⟨rfl, rfl, hlt, ?_, trivial⟩
    rintro ⟨v, hv, hv0⟩
    simp [barrier_sys, Globals.init, List.getElem?_replicate] at hv
    exact absurd hv.2.symm hv0

/-- C5: for every core count `N` (so for every `N >= 1`), when each of the core
ids `0..N-1` calls `set_and_wait_for_ready` exactly once (core `i` with arbitrary hart id
`hart i`), then along every schedule, i.e. every interleaving of the atomic
statements of the `N` calls: whenever some call has returned, every one of the
`N` slots of `core_ready` is non-zero and every one of the `N` callers has
executed its own slot store. -/
theorem C5_barrier_waits_for_all (P : Platform)
    (hart : Nat → Int) (sched : List Nat) (i : Nat) (t : Thread)
    (ht : (Sys.run P (barrier_sys P hart) sched).threads[i]? = some t)
    (hret : t.pc = .returned) :
    (∀ j, j < P.CONFIG_MAX_NUM_NODES →
      ∃ v, (Sys.run P (barrier_sys P hart) sched).g.core_ready[j]? = some v ∧ v ≠ 0) ∧
    (∀ j, j < P.CONFIG_MAX_NUM_NODES →
      ∃ u, (Sys.run P (barrier_sys P hart) sched).threads[j]? = some u ∧
        Event.store_core_ready (j : Int) 1 ∈ u.log) := by
  obtain ⟨_, hth, hall⟩ := barrierSysInv_run P sched _ (barrierSysInv_init P hart)
  have hi := hall i t ht
  obtain ⟨_, _, _, _, hpc⟩ := hi
  rw [hret] at hpc
  have hslots : ∀ j, j < P.CONFIG_MAX_NUM_NODES →
      slot_set (Sys.run P (barrier_sys P hart) sched).g j := hpc
  refine ⟨hslots, ?_⟩
  intro j hj
  have hjlt : j < (Sys.run P (barrier_sys P hart) sched).threads.length := by rw [hth]; exact hj
  refine ⟨_, List.getElem?_eq_getElem hjlt, ?_⟩
  exact (hall j _ (List.getElem?_eq_getElem hjlt)).2.2.2.1 (hslots j hj)

set_option maxRecDepth 100000 in
/-- C5 witness: two cores; core 0 runs its write phase, core 1 registers and
returns, then core 0 finishes polling and returns. -/
theorem C5_barrier_waits_for_all_witness :
    (∀ j : Nat, j < 2 →
      ∃ v, (Sys.run (scenario 2) (barrier_sys (scenario 2) (fun i => i))
        [0, 0, 0, 0, 0, 1, 1, 1, 1, 1, 1, 1, 0, 0, 0]).g.core_ready[j]? = some v ∧ v ≠ 0) ∧
    (∀ j : Nat, j < 2 →
      ∃ u, (Sys.run (scenario 2) (barrier_sys (scenario 2) (fun i => i))
        [0, 0, 0, 0, 0, 1, 1, 1, 1, 1, 1, 1, 0, 0, 0]).threads[j]? = some u ∧
        Event.store_core_ready (j : Int) 1 ∈ u.log) :=
  C5_barrier_waits_for_all (scenario 2) (fun i => i)
    [0, 0, 0, 0, 0, 1, 1, 1, 1, 1, 1, 1, 0, 0, 0] 0
    { pc := .returned, hart_id := 0, core_id := 0, bootloader_dtb := 0, ra := .returned,
      log := [.printf "Hart ID %d core ID %d\n" [0, 0], .store_core_ready 0 1,
              .return_set_and_wait_for_ready] }
    (by decide) rfl

/-! ## The boot episode: preservation of the invariant -/

theorem hart_starts_succ_ne (hart : Int) (n : Nat) (h : ((n + 1 : Nat) : Int) ≠ hart) :
    hart_starts hart (n + 1) = hart_starts hart n ++
      [.sbi_hart_start ((n + 1 : Nat) : Int) .secondary_harts ((n + 1 : Nat) : Int)] := by
  simp only [hart_starts, if_pos h]

theorem hart_starts_succ_eq (hart : Int) (n : Nat) (h : ¬ ((n + 1 : Nat) : Int) ≠ hart) :
    hart_starts hart (n + 1) = hart_starts hart n := by
  simp only [hart_starts, if_neg h, List.append_nil]

set_option maxHeartbeats 4000000 in
theorem primary_step (P : Platform) (hart : Int) (blob : Nat) (g : Globals) (t : Thread)
    (hp : PrimaryInv P hart blob t) (hg : GlobInv P blob g t.pc) :
    PrimaryInv P hart blob (step P g t).2 ∧ GlobInv P blob (step P g t).1 (step P g t).2.pc := by
  obtain ⟨hh, hb, hpc⟩ := hp
  obtain ⟨hlen, hload, hgo, hmx⟩ := hg
  subst hh hb
  cases hq : t.pc <;> rw [hq] at hpc hload hgo hmx <;>
    simp only [before_load, pre_go] at hpc hload hgo hmx
  case re_load =>
    have hgo0 : g.secondary_go = 0 := by simpa using hgo
    have hm0 : g.mutex = 0 := hmx hgo0 (by simp) (by simp)
    simp only [step, main, run_elfloader, set_and_wait_for_ready, secondary_entry, abort, hq]
    split_ifs with h1 h2 h3 <;> simp only [PrimaryInv, GlobInv, Thread.goto, before_load, pre_go]
    · refine ⟨⟨trivial, trivial, trivial, Ne.symm h1, by rw [hpc]; rfl⟩, hlen,
        fun _ => ⟨rfl, rfl, rfl, rfl⟩, ?_, fun _ _ _ => hm0⟩
      simp [hgo0, load_ok, Ne.symm h1]
    · have h1' : (P.load_images 1 t.bootloader_dtb).ret = 0 := by
        by_contra h; exact h1 (Ne.symm h)
      refine ⟨⟨trivial, trivial, h1', trivial, h2, by rw [hpc]; rfl⟩, hlen,
        fun _ => ⟨rfl, rfl, rfl, rfl⟩, ?_, fun _ _ _ => hm0⟩
      simp [hgo0, load_ok, h2]
    · have h1' : (P.load_images 1 t.bootloader_dtb).ret = 0 := by
        by_contra h; exact h1 (Ne.symm h)
      have h2' : (P.load_images 1 t.bootloader_dtb).num_apps = 1 := by
        by_contra h; exact h2 h
      refine ⟨⟨trivial, trivial, ⟨h1', h2'⟩, h3, by rw [hpc]; rfl⟩, hlen,
        fun _ => ⟨rfl, rfl, rfl, rfl⟩, ?_, fun _ _ _ => hm0⟩
      simp [hgo0]
    · have h1' : (P.load_images 1 t.bootloader_dtb).ret = 0 := by
        by_contra h; exact h1 (Ne.symm h)
      have h2' : (P.load_images 1 t.bootloader_dtb).num_apps = 1 := by
        by_contra h; exact h2 h
      refine ⟨⟨trivial, trivial, ⟨h1', h2'⟩, by omega, ?_⟩, hlen,
        fun _ => ⟨rfl, rfl, rfl, rfl⟩, ?_, fun _ _ _ => hm0⟩
      · rw [hpc]; simp [log_jump, log_ready, h3, jump_printfs, log_loaded]
      · simp [hgo0, h3]
  case re_err_load ret =>
    obtain ⟨hr, hne, hl⟩ := hpc
    simp only [step, main, run_elfloader, set_and_wait_for_ready, secondary_entry, abort, hq, PrimaryInv, GlobInv, Thread.goto, before_load, pre_go]
    refine ⟨⟨trivial, trivial, trivial, fun h => absurd h.1 hne, ?_⟩, hlen, hload, hgo,
      fun h _ _ => hmx h (by simp) (by simp)⟩
    rw [hl, hr]; simp [log_ret, hne]
  case re_err_apps n =>
    obtain ⟨hr, hn, hne, hl⟩ := hpc
    simp only [step, main, run_elfloader, set_and_wait_for_ready, secondary_entry, abort, hq, PrimaryInv, GlobInv, Thread.goto, before_load, pre_go]
    refine ⟨⟨trivial, trivial, trivial, fun h => absurd h.2 (hn ▸ hne), ?_⟩, hlen, hload, hgo,
      fun h _ _ => hmx h (by simp) (by simp)⟩
    rw [hl, hn]; simp [log_ret, hr, hn ▸ hne]
  case re_loop i =>
    obtain ⟨hok, hN, hi, hl⟩ := hpc
    have hgo1 : g.secondary_go ≠ 0 := hgo.mpr ⟨hok, hN, trivial⟩
    simp only [step, main, run_elfloader, set_and_wait_for_ready, secondary_entry, abort, hq]
    split_ifs with h1 h2 <;> simp only [PrimaryInv, GlobInv, Thread.goto, before_load, pre_go]
    · have hle : i + 1 ≤ loop_end P := by simp [loop_end, h1.2]; omega
      refine ⟨⟨trivial, trivial, hok, hN, hle, ?_⟩, hlen, hload, hgo,
        fun h => absurd h hgo1⟩
      rw [hl, hart_starts_succ_ne _ i h2]; simp
    · have hle : i + 1 ≤ loop_end P := by simp [loop_end, h1.2]; omega
      refine ⟨⟨trivial, trivial, hok, hN, hle, ?_⟩, hlen, hload, hgo,
        fun h => absurd h hgo1⟩
      rw [hl, hart_starts_succ_eq _ i h2]; simp
    · have hie : i = loop_end P := by
        unfold loop_end at hi ⊢
        cases hs : P.hsm_exists <;> simp [hs] at hi h1 ⊢ <;> omega
      refine ⟨⟨trivial, trivial, hok, hN, trivial, trivial, ?_⟩, hlen, hload, hgo,
        fun h => absurd h hgo1⟩
      rw [hl, hie]; simp [log_called]
  case re_printf k =>
    obtain ⟨hok, hk, hl⟩ := hpc
    have hki : g.kernel_info = (P.load_images 1 t.bootloader_dtb).kernel_info := (hload trivial).1
    simp only [step, main, run_elfloader, set_and_wait_for_ready, secondary_entry, abort, hq]
    split_ifs with h1 <;> simp only [PrimaryInv, GlobInv, Thread.goto, before_load, pre_go]
    · refine ⟨⟨trivial, trivial, hok, by omega, ?_⟩, hlen, hload, hgo,
        fun h _ _ => hmx h (by simp) (by simp)⟩
      rw [hl, hki]; simp [log_jump, jump_printfs]
    · have hk4 : k = 4 := by omega
      refine ⟨⟨trivial, trivial, hok, ?_⟩, hlen, hload, hgo,
        fun h _ _ => hmx h (by simp) (by simp)⟩
      rw [hl, hki, hk4]; simp [log_jump, jump_printfs]
  case saw_poll i =>
    obtain ⟨hok, hN, hc, hra, hi, hl⟩ := hpc
    have hgo1 : g.secondary_go ≠ 0 := hgo.mpr ⟨hok, hN, trivial⟩
    simp only [step, main, run_elfloader, set_and_wait_for_ready, secondary_entry, abort, hq]
    split_ifs with h1
    · have hilen : i < g.core_ready.length := by rw [hlen]; exact h1
      rw [List.getElem?_eq_getElem hilen]
      simp only []
      split_ifs with h2 <;> simp only [PrimaryInv, GlobInv, Thread.goto, before_load, pre_go, hq]
      · exact ⟨⟨trivial, trivial, hok, hN, hc, hra, hi, hl⟩, hlen, hload, hgo,
          fun h => absurd h hgo1⟩
      · exact ⟨⟨trivial, trivial, hok, hN, hc, hra, h1, by simpa using hl⟩, hlen, hload, hgo,
          fun h => absurd h hgo1⟩
    · simp only [hra, PrimaryInv, GlobInv, Thread.goto, before_load, pre_go]
      refine ⟨⟨trivial, trivial, hok, by omega, ?_⟩, hlen, hload, hgo,
        fun h => absurd h hgo1⟩
      rw [hl]; simp [log_jump, log_ready, hN, jump_printfs]
  all_goals simp only [step, main, run_elfloader, set_and_wait_for_ready, secondary_entry, abort, hq]
  all_goals (try split_ifs)
  all_goals simp only [PrimaryInv, GlobInv, Thread.goto, before_load, pre_go]
  all_goals (try (simp_all [loaded, load_ok,
    log_main, log_loaded, log_go, log_called, log_stored, log_ready, log_jump, log_kernel,
    log_ret, log_failed, log_halt, primary_kernel_returns, primary_args, handoff_args,
    primary_handoff, hart_starts, jump_printfs]))

theorem globInv_loaded (P : Platform) (blob : Nat) (g : Globals) (pc : PC)
    (hg : GlobInv P blob g pc) (hgo : g.secondary_go ≠ 0) : loaded P blob g := by
  obtain ⟨_, hload, hiff, _⟩ := hg
  have h := (hiff.mp hgo).2.2
  apply hload
  cases pc <;> simp_all [pre_go, before_load]

theorem secondaryInv_mono (P : Platform) (blob : Nat) (g g1 : Globals) (t : Thread)
    (hgo : g.secondary_go ≠ 0 → g1.secondary_go ≠ 0) (h : SecondaryInv P blob g t) :
    SecondaryInv P blob g1 t :=
  ⟨fun hne => hgo (h.1 hne), h.2⟩

set_option maxHeartbeats 4000000 in
theorem secondary_step (P : Platform) (blob : Nat) (g : Globals) (t : Thread) (pc0 : PC)
    (hs : SecondaryInv P blob g t) (hg : GlobInv P blob g pc0) :
    SecondaryInv P blob (step P g t).1 (step P g t).2 ∧ GlobInv P blob (step P g t).1 pc0 := by
  obtain ⟨hgo, hpc⟩ := hs
  have hld : g.secondary_go ≠ 0 → loaded P blob g := globInv_loaded P blob g pc0 hg
  obtain ⟨hlen, hload, hiff, hmx⟩ := hg
  cases hq : t.pc <;> rw [hq] at hpc hgo <;> simp only [] at hpc
  case se_call =>
    have hgo1 : g.secondary_go ≠ 0 := hgo (by simp)
    obtain ⟨h1, h2, h3, h4⟩ := hld hgo1
    simp only [step, main, run_elfloader, set_and_wait_for_ready, secondary_entry, abort, hq]
    split_ifs with hr <;> simp only [SecondaryInv, GlobInv, Thread.goto]
    · refine ⟨⟨fun _ => hgo1, ?_, ?_⟩, hlen, hload, hiff, hmx⟩
      · simpa [secondary_kernel_returns, secondary_args, handoff_args, h1, h2, h3, h4] using hr
      · simp [hpc, secondary_handoff, secondary_args, handoff_args, h1, h2, h3, h4]
    · refine ⟨⟨fun _ => hgo1, ?_, ?_⟩, hlen, hload, hiff, hmx⟩
      · simpa [secondary_kernel_returns, secondary_args, handoff_args, h1, h2, h3, h4] using hr
      · simp [hpc, secondary_handoff, secondary_args, handoff_args, h1, h2, h3, h4]
  case saw_poll i =>
    have hgo1 : g.secondary_go ≠ 0 := hgo (by simp)
    simp only [step, main, run_elfloader, set_and_wait_for_ready, secondary_entry, abort, hq]
    split_ifs with h1
    · cases hget : g.core_ready[i]? with
      | none =>
        simp only [SecondaryInv, GlobInv, Thread.goto]
        exact ⟨⟨fun _ => hgo1, by simpa using hpc.2⟩, hlen, hload, hiff, hmx⟩
      | some v =>
        simp only []
        split_ifs with h2 <;> simp only [SecondaryInv, GlobInv, Thread.goto, hq]
        · exact ⟨⟨fun _ => hgo1, hpc⟩, hlen, hload, hiff, hmx⟩
        · exact ⟨⟨fun _ => hgo1, hpc.1, by simpa using hpc.2⟩, hlen, hload, hiff, hmx⟩
    · simp only [hpc.1, SecondaryInv, GlobInv, Thread.goto]
      exact ⟨⟨fun _ => hgo1, by simp [hpc.2]⟩, hlen, hload, hiff, hmx⟩
  all_goals simp only [step, main, run_elfloader, set_and_wait_for_ready, secondary_entry, abort, hq]
  all_goals (try split_ifs)
  all_goals simp only [SecondaryInv, GlobInv, Thread.goto]
  all_goals (try (simp_all [slog_called, slog_stored, slog_ready, loaded]))

theorem bootInv_step (P : Platform) (hart : Int) (blob : Nat) (s : Sys) (i : Nat)
    (h : BootInv P hart blob s) : BootInv P hart blob (Sys.step P s i) := by
  obtain ⟨t0, rest, hth, hp, hg, hs⟩ := h
  unfold Sys.step
  cases i with
  | zero =>
    have h0 : s.threads[0]? = some t0 := by rw [hth]; simp
    rw [h0]
    have hstep := primary_step P hart blob s.g t0 hp hg
    refine ⟨(step P s.g t0).2, rest, by simp [hth], hstep.1, hstep.2, ?_⟩
    intro t ht
    exact secondaryInv_mono P blob s.g _ t (step_go_mono P s.g t0) (hs t ht)
  | succ j =>
    have hj : s.threads[j + 1]? = rest[j]? := by rw [hth]; simp
    rw [hj]
    cases hr : rest[j]? with
    | none => exact ⟨t0, rest, hth, hp, hg, hs⟩
    | some t =>
      have htm : t ∈ rest := by
        obtain ⟨hlt, hget⟩ := List.getElem?_eq_some.mp hr
        rw [← hget]; exact List.getElem_mem _
      have hstep := secondary_step P blob s.g t t0.pc (hs t htm) hg
      refine ⟨t0, rest.set j (step P s.g t).2, by simp [hth], hp, hstep.2, ?_⟩
      intro u hu
      rcases List.mem_or_eq_of_mem_set hu with hu | hu
      · exact secondaryInv_mono P blob s.g _ u (step_go_mono P s.g t) (hs u hu)
      · rw [hu]; exact hstep.1

theorem bootInv_run (P : Platform) (hart : Int) (blob : Nat) (sched : List Nat) :
    ∀ s : Sys, BootInv P hart blob s → BootInv P hart blob (Sys.run P s sched) := by
  induction sched with
  | nil => intro s h; exact h
  | cons i rest ih => intro s h; exact ih _ (bootInv_step P hart blob s i h)

theorem bootInv_init (P : Platform) (hart : Int) (blob : Nat) (secs : List (Int × Int)) :
    BootInv P hart blob (boot P hart blob secs) := by
  refine ⟨main_thread hart blob, secs.map secondary_thread, rfl, ⟨rfl, rfl, rfl⟩, ?_, ?_⟩
  · refine ⟨by simp [boot, Globals.init], by simp [main_thread, before_load], ?_, ?_⟩
    · simp [boot, Globals.init, main_thread, pre_go]
    · intro _ _ _; rfl
  · intro t ht
    obtain ⟨ids, _, rfl⟩ := List.mem_map.mp ht
    exact ⟨fun h => absurd rfl h, rfl⟩

theorem bootInv_boot (P : Platform) (hart : Int) (blob : Nat) (secs : List (Int × Int))
    (sched : List Nat) :
    BootInv P hart blob (Sys.run P (boot P hart blob secs) sched) :=
  bootInv_run P hart blob sched _ (bootInv_init P hart blob secs)

/-! ## Progress of the primary core -/

set_option maxHeartbeats 4000000 in
theorem rank_step (P : Platform) (hart : Int) (blob : Nat) (g : Globals) (t : Thread)
    (hp : PrimaryInv P hart blob t) (hg : GlobInv P blob g t.pc)
    (hb : blocking t.pc = false) :
    rank P blob (step P g t).2.pc = rank P blob t.pc + 1 := by
  obtain ⟨hh, hbl, hpc⟩ := hp
  obtain ⟨hlen, hload, hgo, hmx⟩ := hg
  subst hh hbl
  cases hq : t.pc <;> rw [hq] at hpc hload hgo hmx hb <;>
    simp only [before_load, pre_go, blocking] at hpc hload hgo hmx hb
  case re_lock =>
    have hgo0 : g.secondary_go = 0 := by simpa using hgo
    have hm0 : g.mutex = 0 := hmx hgo0 (by simp) (by simp)
    simp [step, main, run_elfloader, set_and_wait_for_ready, secondary_entry, abort, hq, hm0, Thread.goto, rank]
  case re_loop i =>
    obtain ⟨hok, hN, hi, hl⟩ := hpc
    simp only [step, main, run_elfloader, set_and_wait_for_ready, secondary_entry, abort, hq]
    split_ifs with h1 h2 <;> simp only [Thread.goto, rank]
    · omega
    · omega
    · have hie : i = loop_end P := by
        unfold loop_end at hi ⊢
        cases hs : P.hsm_exists <;> simp [hs] at hi h1 ⊢ <;> omega
      omega
  case re_load =>
    simp only [step, main, run_elfloader, set_and_wait_for_ready, secondary_entry, abort, hq]
    split_ifs with h1 h2 h3 <;> simp only [Thread.goto, rank, base_rank]
    all_goals first
      | omega
      | (split_ifs <;> omega)
  case re_printf k =>
    simp only [step, main, run_elfloader, set_and_wait_for_ready, secondary_entry, abort, hq]
    split_ifs with h1 <;> simp only [Thread.goto, rank]
    · omega
    · have : k = 4 := by omega
      omega
  case re_err_load r =>
    have hnok : ¬ load_ok P t.bootloader_dtb := fun h => hpc.2.1 h.1
    simp [step, main, run_elfloader, set_and_wait_for_ready, secondary_entry, abort, hq, Thread.goto, rank, hnok]
  case re_err_apps n =>
    have hnok : ¬ load_ok P t.bootloader_dtb := fun h => hpc.2.2.1 (hpc.2.1 ▸ h.2)
    simp [step, main, run_elfloader, set_and_wait_for_ready, secondary_entry, abort, hq, Thread.goto, rank, hnok]
  case re_kernel_returned =>
    simp [step, main, run_elfloader, set_and_wait_for_ready, secondary_entry, abort, hq, Thread.goto, rank, hpc.1]
  case saw_store =>
    have hin : 0 ≤ t.core_id ∧ t.core_id.toNat < g.core_ready.length := by
      rw [hpc.2.2.1, hlen]; simp; omega
    simp only [step, main, run_elfloader, set_and_wait_for_ready, secondary_entry, abort, hq, if_pos hin, Thread.goto, rank]
    omega
  all_goals simp only [step, main, run_elfloader, set_and_wait_for_ready, secondary_entry, abort, hq]
  all_goals (try split_ifs)
  all_goals simp only [Thread.goto, rank]
  all_goals (try omega)
  all_goals (try (split_ifs <;> omega))
  all_goals (try simp at hb)

theorem rank_mono (P : Platform) (hart : Int) (blob : Nat) (g : Globals) (t : Thread)
    (hp : PrimaryInv P hart blob t) (hg : GlobInv P blob g t.pc) :
    rank P blob t.pc ≤ rank P blob (step P g t).2.pc := by
  cases hb : blocking t.pc
  · rw [rank_step P hart blob g t hp hg hb]; omega
  · obtain ⟨hh, hbl, hpc⟩ := hp
    obtain ⟨hlen, hload, hgo, hmx⟩ := hg
    cases hq : t.pc <;> rw [hq] at hpc hb <;> simp only [blocking] at hpc hb
    case saw_lock =>
      simp only [step, main, run_elfloader, set_and_wait_for_ready, secondary_entry, abort, hq]
      split_ifs <;> simp only [Thread.goto, rank, hq]
      all_goals omega
    case saw_poll i =>
      obtain ⟨hok, hN, hc, hra, hi, hl⟩ := hpc
      simp only [step, main, run_elfloader, set_and_wait_for_ready, secondary_entry, abort, hq]
      split_ifs with h1
      · have hilen : i < g.core_ready.length := by rw [hlen]; exact h1
        rw [List.getElem?_eq_getElem hilen]
        simp only []
        split_ifs <;> simp only [Thread.goto, rank, hq] <;> omega
      · simp only [Thread.goto, rank, hra, base_rank, if_pos hN]
        omega
    case abort_idle => simp [step, main, run_elfloader, set_and_wait_for_ready, secondary_entry, abort, hq]
    case in_kernel => simp [step, main, run_elfloader, set_and_wait_for_ready, secondary_entry, abort, hq]
    all_goals simp at hb

theorem sys_step_primary_zero (P : Platform) (s : Sys) (t0 : Thread)
    (h : s.primary = some t0) :
    (Sys.step P s 0).primary = some (step P s.g t0).2 ∧
      (Sys.step P s 0).g = (step P s.g t0).1 := by
  unfold Sys.primary at h
  cases hth : s.threads with
  | nil => rw [hth] at h; cases h
  | cons a rest =>
    rw [hth] at h
    cases h
    simp [Sys.step, hth, Sys.primary]

theorem sys_step_primary_succ (P : Platform) (s : Sys) (j : Nat) :
    (Sys.step P s (j + 1)).primary = s.primary := by
  unfold Sys.step Sys.primary
  cases hth : s.threads with
  | nil => simp [hth]
  | cons a rest =>
    cases hr : rest[j]? <;> simp [hr, hth]

theorem bootInv_primary (P : Platform) (hart : Int) (blob : Nat) (s : Sys)
    (h : BootInv P hart blob s) :
    ∃ t0, s.primary = some t0 ∧ PrimaryInv P hart blob t0 ∧ GlobInv P blob s.g t0.pc ∧
      ∀ t ∈ s.secondaries, SecondaryInv P blob s.g t := by
  obtain ⟨t0, rest, hth, hp, hg, hs⟩ := h
  exact ⟨t0, by simp [Sys.primary, hth], hp, hg, by simpa [Sys.secondaries, hth] using hs⟩

/-- If no program point with rank in `[lo, hi)` can block, a primary that is at
rank `lo` or beyond and is scheduled often enough gets to rank `hi`. -/
theorem primary_progress (P : Platform) (hart : Int) (blob : Nat) (lo hi : Nat)
    (hfree : ∀ t, PrimaryInv P hart blob t → lo ≤ rank P blob t.pc → rank P blob t.pc < hi →
      blocking t.pc = false)
    (sched : List Nat) :
    ∀ s : Sys, BootInv P hart blob s → ∀ t0, s.primary = some t0 → lo ≤ rank P blob t0.pc →
      hi ≤ rank P blob t0.pc + sched.count 0 →
      ∃ t1, (Sys.run P s sched).primary = some t1 ∧ hi ≤ rank P blob t1.pc := by
  induction sched with
  | nil =>
    intro s _ t0 h0 _ hhi
    exact ⟨t0, h0, by simpa using hhi⟩
  | cons i rest ih =>
    intro s hinv t0 h0 hlo hhi
    have hinv1 := bootInv_step P hart blob s i hinv
    obtain ⟨t0', h0', hp, hg, _⟩ := bootInv_primary P hart blob s hinv
    rw [h0] at h0'
    cases h0'
    cases i with
    | zero =>
      have hz := (sys_step_primary_zero P s t0 h0).1
      have hmono := rank_mono P hart blob s.g t0 hp hg
      simp only [List.count_cons_self] at hhi
      by_cases hlt : rank P blob t0.pc < hi
      · have hstep := rank_step P hart blob s.g t0 hp hg (hfree t0 hp hlo hlt)
        exact ih _ hinv1 _ hz (by omega) (by omega)
      · exact ih _ hinv1 _ hz (by omega) (by omega)
    | succ j =>
      have hz := sys_step_primary_succ P s j
      rw [h0] at hz
      have hc : List.count 0 ((j + 1) :: rest) = List.count 0 rest := by
        rw [List.count_cons]; simp
      rw [hc] at hhi
      exact ih _ hinv1 _ hz hlo hhi

/-! ## Shape of the logs -/

theorem jump_printf_is_printf (ki : image_info) (k : Nat) :
    (jump_printf ki k).is_printf = true ∧ (jump_printf ki k).is_kernel_entry = false ∧
      (jump_printf ki k).is_hart_start = false ∧ (jump_printf ki k).is_store_go = false := by
  unfold jump_printf
  split <;> simp [Event.is_printf, Event.is_kernel_entry, Event.is_hart_start, Event.is_store_go]

theorem mem_jump_printfs (ki : image_info) (k : Nat) (e : Event) (h : e ∈ jump_printfs ki k) :
    e.is_printf = true ∧ e.is_kernel_entry = false ∧ e.is_hart_start = false ∧
      e.is_store_go = false := by
  induction k with
  | zero => simp [jump_printfs] at h
  | succ n ih =>
    simp only [jump_printfs, List.mem_append, List.mem_singleton] at h
    rcases h with h | h
    · exact ih h
    · rw [h]; exact jump_printf_is_printf ki n

theorem mem_hart_starts (hart : Int) (n : Nat) (e : Event) :
    e ∈ hart_starts hart n ↔
      ∃ k : Nat, 1 ≤ k ∧ k ≤ n ∧ (k : Int) ≠ hart ∧
        e = .sbi_hart_start (k : Int) .secondary_harts (k : Int) := by
  induction n with
  | zero =>
    simp only [hart_starts, List.not_mem_nil, false_iff]
    rintro ⟨k, h1, h2, _⟩
    omega
  | succ n ih =>
    simp only [hart_starts, List.mem_append, ih]
    constructor
    · rintro (⟨k, h1, h2, h3, h4⟩ | h)
      · exact ⟨k, h1, by omega, h3, h4⟩
      · split_ifs at h with hne
        · simp only [List.mem_singleton] at h
          exact ⟨n + 1, by omega, by omega, hne, h⟩
        · simp at h
    · rintro ⟨k, h1, h2, h3, h4⟩
      by_cases hk : k = n + 1
      · right
        subst hk
        rw [if_pos h3]
        simp [h4]
      · left
        exact ⟨k, h1, by omega, h3, h4⟩

theorem hart_starts_kind (hart : Int) (n : Nat) (e : Event) (h : e ∈ hart_starts hart n) :
    e.is_hart_start = true ∧ e.is_kernel_entry = false ∧ e.is_printf = false ∧
      e.is_store_go = false := by
  obtain ⟨k, _, _, _, rfl⟩ := (mem_hart_starts hart n e).mp h
  simp [Event.is_printf, Event.is_kernel_entry, Event.is_hart_start, Event.is_store_go]

theorem hart_starts_closed_form (hart : Int) (n : Nat) :
    hart_starts hart n =
      ((List.range' 1 n).filter (fun k : Nat => decide ((k : Int) ≠ hart))).map
        (fun k : Nat => Event.sbi_hart_start (k : Int) .secondary_harts (k : Int)) := by
  induction n with
  | zero => rfl
  | succ n ih =>
    rw [hart_starts, ih, List.range'_concat, List.filter_append, List.map_append]
    congr 1
    by_cases h : ((n + 1 : Nat) : Int) ≠ hart
    · have h' : ((1 + 1 * n : Nat) : Int) ≠ hart := by
        have : 1 + 1 * n = n + 1 := by omega
        rw [this]; exact h
      rw [if_pos h, List.filter_cons_of_pos (by simpa using h')]
      have : 1 + 1 * n = n + 1 := by omega
      simp [this]
      omega
    · have h' : ¬ ((1 + 1 * n : Nat) : Int) ≠ hart := by
        have : 1 + 1 * n = n + 1 := by omega
        rw [this]; exact h
      rw [if_neg h, List.filter_cons_of_neg (by simpa using h')]
      rfl

theorem hart_starts_length (hart : Int) (n : Nat) :
    (hart_starts hart n).length = if 1 ≤ hart ∧ hart ≤ n then n - 1 else n := by
  induction n with
  | zero =>
    have : ¬ (1 ≤ hart ∧ hart ≤ ((0 : Nat) : Int)) := by omega
    simp [hart_starts]
  | succ n ih =>
    rw [hart_starts, List.length_append, ih]
    by_cases h : ((n + 1 : Nat) : Int) ≠ hart
    · rw [if_pos h]
      by_cases h1 : 1 ≤ hart ∧ hart ≤ (n : Int)
      · have h2 : 1 ≤ hart ∧ hart ≤ ((n + 1 : Nat) : Int) := by omega
        rw [if_pos h1, if_pos h2]
        simp
        omega
      · have h2 : ¬ (1 ≤ hart ∧ hart ≤ ((n + 1 : Nat) : Int)) := by omega
        rw [if_neg h1, if_neg h2]
        simp
    · rw [if_neg h]
      have h1 : ¬ (1 ≤ hart ∧ hart ≤ (n : Int)) := by omega
      have h2 : 1 ≤ hart ∧ hart ≤ ((n + 1 : Nat) : Int) := by omega
      rw [if_neg h1, if_pos h2]
      simp

theorem hart_starts_isPrefix (hart : Int) (i n : Nat) (h : i ≤ n) :
    hart_starts hart i <+: hart_starts hart n := by
  induction n with
  | zero =>
    have : i = 0 := by omega
    subst this
    exact List.prefix_refl _
  | succ n ih =>
    by_cases hi : i = n + 1
    · subst hi; exact List.prefix_refl _
    · exact List.IsPrefix.trans (ih (by omega)) (by rw [hart_starts]; exact List.prefix_append _ _)

theorem filter_hart_starts (hart : Int) (n : Nat) :
    (hart_starts hart n).filter Event.is_hart_start = hart_starts hart n ∧
    (hart_starts hart n).filter Event.is_kernel_entry = [] := by
  constructor
  · exact List.filter_eq_self.mpr (fun e he => (hart_starts_kind hart n e he).1)
  · rw [List.filter_eq_nil_iff]
    intro e he
    simp [(hart_starts_kind hart n e he).2.1]

theorem filter_jump_printfs (ki : image_info) (k : Nat) :
    (jump_printfs ki k).filter Event.is_hart_start = [] ∧
    (jump_printfs ki k).filter Event.is_kernel_entry = [] := by
  constructor
  · rw [List.filter_eq_nil_iff]
    intro e he
    simp [(mem_jump_printfs ki k e he).2.2.1]
  · rw [List.filter_eq_nil_iff]
    intro e he
    simp [(mem_jump_printfs ki k e he).2.1]

theorem ke_log_loaded (P : Platform) (hart : Int) (blob : Nat) :
    (log_loaded P hart blob).filter Event.is_kernel_entry = [] := rfl

theorem ke_log_go (P : Platform) (hart : Int) (blob : Nat) :
    (log_go P hart blob).filter Event.is_kernel_entry = [] := rfl

theorem ke_log_called (P : Platform) (hart : Int) (blob : Nat) :
    (log_called P hart blob).filter Event.is_kernel_entry = [] := by
  rw [log_called, List.filter_append, List.filter_append, ke_log_go, (filter_hart_starts _ _).2]
  rfl

theorem ke_log_stored (P : Platform) (hart : Int) (blob : Nat) :
    (log_stored P hart blob).filter Event.is_kernel_entry = [] := by
  rw [log_stored, List.filter_append, ke_log_called]
  rfl

theorem ke_log_ready (P : Platform) (hart : Int) (blob : Nat) :
    (log_ready P hart blob).filter Event.is_kernel_entry = [] := by
  unfold log_ready
  split_ifs
  · rw [List.filter_append, ke_log_stored]; rfl
  · exact ke_log_loaded P hart blob

theorem ke_log_jump (P : Platform) (hart : Int) (blob : Nat) (k : Nat) :
    (log_jump P hart blob k).filter Event.is_kernel_entry = [] := by
  rw [log_jump, List.filter_append, ke_log_ready, (filter_jump_printfs _ _).2]
  rfl

theorem ke_log_kernel (P : Platform) (hart : Int) (blob : Nat) :
    (log_kernel P hart blob).filter Event.is_kernel_entry = [primary_handoff P hart blob] := by
  rw [log_kernel, List.filter_append, ke_log_jump]
  rfl

theorem ke_log_ret (P : Platform) (hart : Int) (blob : Nat) :
    (log_ret P hart blob).filter Event.is_kernel_entry =
      if load_ok P blob then [primary_handoff P hart blob] else [] := by
  unfold log_ret
  by_cases hok : load_ok P blob
  · have h1 : ¬ (P.load_images 1 blob).ret ≠ 0 := fun h => h hok.1
    have h2 : ¬ (P.load_images 1 blob).num_apps ≠ 1 := fun h => h hok.2
    rw [if_pos hok, if_neg h1, if_neg h2, List.filter_append, ke_log_kernel]
    rfl
  · rw [if_neg hok]
    split_ifs with h1 h2
    · rw [List.filter_append, ke_log_loaded]; rfl
    · rw [List.filter_append, ke_log_loaded]; rfl
    · exact absurd ⟨not_not.mp h1, not_not.mp h2⟩ hok

theorem ke_log_failed (P : Platform) (hart : Int) (blob : Nat) :
    (log_failed P hart blob).filter Event.is_kernel_entry =
      if load_ok P blob then [primary_handoff P hart blob] else [] := by
  rw [log_failed, List.filter_append, ke_log_ret]
  split_ifs <;> rfl

theorem ke_log_halt (P : Platform) (hart : Int) (blob : Nat) :
    (log_halt P hart blob).filter Event.is_kernel_entry =
      if load_ok P blob then [primary_handoff P hart blob] else [] := by
  rw [log_halt, List.filter_append, ke_log_failed]
  split_ifs <;> rfl

/-- The kernel calls in the primary's log: none before the call on line 126,
exactly the one call afterwards. -/
theorem primary_kernel_entries (P : Platform) (hart : Int) (blob : Nat) (t : Thread)
    (hp : PrimaryInv P hart blob t) :
    t.log.filter Event.is_kernel_entry =
      if called_kernel P blob t.pc = true then [primary_handoff P hart blob] else [] := by
  obtain ⟨_, _, hpc⟩ := hp
  cases hq : t.pc <;> rw [hq] at hpc <;> simp only [] at hpc
  all_goals simp only [called_kernel]
  case main_init => rw [hpc]; rfl
  case main_printf_started => rw [hpc]; rfl
  case main_printf_paddr => rw [hpc]; rfl
  case re_load => rw [hpc]; rfl
  case re_err_load => rw [hpc.2.2]; rfl
  case re_err_apps => rw [hpc.2.2.2]; rfl
  case re_lock => rw [hpc.2.2]; rfl
  case re_printf_entry => rw [hpc.2.2]; rfl
  case re_unlock => rw [hpc.2.2]; rfl
  case re_store_go => rw [hpc.2.2]; rfl
  case re_loop i =>
    rw [hpc.2.2.2, List.filter_append, ke_log_go, (filter_hart_starts _ _).2]; rfl
  case saw_lock => rw [hpc.2.2.2.2, ke_log_called]; rfl
  case saw_printf => rw [hpc.2.2.2.2, ke_log_called]; rfl
  case saw_store => rw [hpc.2.2.2.2, List.filter_append, ke_log_called]; rfl
  case saw_unlock => rw [hpc.2.2.2.2, ke_log_stored]; rfl
  case saw_poll i => rw [hpc.2.2.2.2.2, ke_log_stored]; rfl
  case re_printf k => rw [hpc.2.2, ke_log_jump]; rfl
  case re_call => rw [hpc.2, ke_log_jump]; rfl
  case in_kernel => rw [hpc.2.2, ke_log_kernel]; rfl
  case re_kernel_returned => rw [hpc.2.2, ke_log_kernel]; rfl
  case main_ret r => rw [hpc.2.2, ke_log_ret]; simp
  case abort_printf => rw [hpc.2, ke_log_failed]; simp
  case abort_idle => rw [hpc.2, ke_log_halt]; simp

theorem hs_log_go (P : Platform) (hart : Int) (blob : Nat) :
    (log_go P hart blob).filter Event.is_hart_start = [] := rfl

theorem hs_log_called (P : Platform) (hart : Int) (blob : Nat) :
    (log_called P hart blob).filter Event.is_hart_start = hart_starts hart (loop_end P) := by
  rw [log_called, List.filter_append, List.filter_append, hs_log_go, (filter_hart_starts _ _).1]
  simp only [List.nil_append]
  exact List.append_nil _

theorem hs_log_stored (P : Platform) (hart : Int) (blob : Nat) :
    (log_stored P hart blob).filter Event.is_hart_start = hart_starts hart (loop_end P) := by
  rw [log_stored, List.filter_append, hs_log_called]
  exact List.append_nil _

theorem hs_log_ready (P : Platform) (hart : Int) (blob : Nat) :
    (log_ready P hart blob).filter Event.is_hart_start =
      hart_starts hart (if 1 < P.CONFIG_MAX_NUM_NODES then loop_end P else 0) := by
  unfold log_ready
  split_ifs
  · rw [List.filter_append, hs_log_stored]; exact List.append_nil _
  · rfl

theorem hs_log_jump (P : Platform) (hart : Int) (blob : Nat) (k : Nat) :
    (log_jump P hart blob k).filter Event.is_hart_start =
      hart_starts hart (if 1 < P.CONFIG_MAX_NUM_NODES then loop_end P else 0) := by
  rw [log_jump, List.filter_append, hs_log_ready, (filter_jump_printfs _ _).1]
  exact List.append_nil _

theorem hs_log_kernel (P : Platform) (hart : Int) (blob : Nat) :
    (log_kernel P hart blob).filter Event.is_hart_start =
      hart_starts hart (if 1 < P.CONFIG_MAX_NUM_NODES then loop_end P else 0) := by
  rw [log_kernel, List.filter_append, hs_log_jump]
  exact List.append_nil _

theorem hs_log_ret (P : Platform) (hart : Int) (blob : Nat) :
    (log_ret P hart blob).filter Event.is_hart_start =
      hart_starts hart
        (if load_ok P blob ∧ 1 < P.CONFIG_MAX_NUM_NODES then loop_end P else 0) := by
  unfold log_ret
  by_cases hok : load_ok P blob
  · have h1 : ¬ (P.load_images 1 blob).ret ≠ 0 := fun h => h hok.1
    have h2 : ¬ (P.load_images 1 blob).num_apps ≠ 1 := fun h => h hok.2
    rw [if_neg h1, if_neg h2, List.filter_append, hs_log_kernel]
    simp only [hok, true_and]
    exact List.append_nil _
  · have hc : ¬ (load_ok P blob ∧ 1 < P.CONFIG_MAX_NUM_NODES) := fun h => hok h.1
    rw [if_neg hc]
    split_ifs with h1 h2
    · rfl
    · rfl
    · exact absurd ⟨not_not.mp h1, not_not.mp h2⟩ hok

theorem hs_log_failed (P : Platform) (hart : Int) (blob : Nat) :
    (log_failed P hart blob).filter Event.is_hart_start =
      hart_starts hart
        (if load_ok P blob ∧ 1 < P.CONFIG_MAX_NUM_NODES then loop_end P else 0) := by
  rw [log_failed, List.filter_append, hs_log_ret]
  exact List.append_nil _

theorem hs_log_halt (P : Platform) (hart : Int) (blob : Nat) :
    (log_halt P hart blob).filter Event.is_hart_start =
      hart_starts hart
        (if load_ok P blob ∧ 1 < P.CONFIG_MAX_NUM_NODES then loop_end P else 0) := by
  rw [log_halt, List.filter_append, hs_log_failed]
  exact List.append_nil _

/-- The `sbi_hart_start` calls in the primary's log are those of the loop
iterations it has completed. -/
theorem primary_hart_starts (P : Platform) (hart : Int) (blob : Nat) (t : Thread)
    (hp : PrimaryInv P hart blob t) :
    t.log.filter Event.is_hart_start = hart_starts hart (iterations P blob t.pc) := by
  obtain ⟨_, _, hpc⟩ := hp
  cases hq : t.pc <;> rw [hq] at hpc <;> simp only [] at hpc
  all_goals simp only [iterations]
  case main_init => rw [hpc]; rfl
  case main_printf_started => rw [hpc]; rfl
  case main_printf_paddr => rw [hpc]; rfl
  case re_load => rw [hpc]; rfl
  case re_err_load => rw [hpc.2.2]; rfl
  case re_err_apps => rw [hpc.2.2.2]; rfl
  case re_lock => rw [hpc.2.2]; rfl
  case re_printf_entry => rw [hpc.2.2]; rfl
  case re_unlock => rw [hpc.2.2]; rfl
  case re_store_go => rw [hpc.2.2]; rfl
  case re_loop i =>
    rw [hpc.2.2.2, List.filter_append, hs_log_go, (filter_hart_starts _ _).1]; rfl
  case saw_lock => rw [hpc.2.2.2.2, hs_log_called]
  case saw_printf => rw [hpc.2.2.2.2, hs_log_called]
  case saw_store =>
    rw [hpc.2.2.2.2, List.filter_append, hs_log_called]; exact List.append_nil _
  case saw_unlock => rw [hpc.2.2.2.2, hs_log_stored]
  case saw_poll i => rw [hpc.2.2.2.2.2, hs_log_stored]
  case re_printf k => rw [hpc.2.2, hs_log_jump]
  case re_call => rw [hpc.2, hs_log_jump]
  case in_kernel => rw [hpc.2.2, hs_log_kernel]
  case re_kernel_returned => rw [hpc.2.2, hs_log_kernel]
  case main_ret r => rw [hpc.2.2, hs_log_ret]
  case abort_printf => rw [hpc.2, hs_log_failed]
  case abort_idle => rw [hpc.2, hs_log_halt]

/-! ## Every log of the primary is an initial segment of one trace -/

theorem log_loaded_le_ret (P : Platform) (hart : Int) (blob : Nat)
    (h : ¬ load_ok P blob) : log_loaded P hart blob <+: log_ret P hart blob := by
  unfold log_ret
  split_ifs with h1 h2
  · exact List.prefix_append _ _
  · exact List.prefix_append _ _
  · exact absurd ⟨not_not.mp h1, not_not.mp h2⟩ h

theorem log_ret_le_halt (P : Platform) (hart : Int) (blob : Nat) :
    log_ret P hart blob <+: log_halt P hart blob := by
  unfold log_halt log_failed
  rw [List.append_assoc]
  exact List.prefix_append _ _

theorem log_kernel_le_halt (P : Platform) (hart : Int) (blob : Nat) (h : load_ok P blob) :
    log_kernel P hart blob <+: log_halt P hart blob := by
  refine List.IsPrefix.trans ?_ (log_ret_le_halt P hart blob)
  unfold log_ret
  have h1 : ¬ (P.load_images 1 blob).ret ≠ 0 := fun x => x h.1
  have h2 : ¬ (P.load_images 1 blob).num_apps ≠ 1 := fun x => x h.2
  rw [if_neg h1, if_neg h2]
  exact List.prefix_append _ _

theorem jump_printfs_le (ki : image_info) (k n : Nat) (h : k ≤ n) :
    jump_printfs ki k <+: jump_printfs ki n := by
  induction n with
  | zero =>
    have : k = 0 := by omega
    subst this
    exact List.prefix_refl _
  | succ n ih =>
    by_cases hk : k = n + 1
    · subst hk; exact List.prefix_refl _
    · exact List.IsPrefix.trans (ih (by omega)) (by rw [jump_printfs]; exact List.prefix_append _ _)

theorem log_jump_le_kernel (P : Platform) (hart : Int) (blob : Nat) (k : Nat) (h : k ≤ 5) :
    log_jump P hart blob k <+: log_kernel P hart blob := by
  unfold log_kernel log_jump
  refine List.IsPrefix.trans ?_ (List.prefix_append _ _)
  exact (List.prefix_append_right_inj _).mpr (jump_printfs_le _ k 5 h)

theorem log_ready_le_kernel (P : Platform) (hart : Int) (blob : Nat) :
    log_ready P hart blob <+: log_kernel P hart blob := by
  refine List.IsPrefix.trans ?_ (log_jump_le_kernel P hart blob 0 (by omega))
  unfold log_jump
  exact List.prefix_append _ _

theorem log_loaded_le_kernel (P : Platform) (hart : Int) (blob : Nat) :
    log_loaded P hart blob <+: log_kernel P hart blob := by
  refine List.IsPrefix.trans ?_ (log_ready_le_kernel P hart blob)
  unfold log_ready
  split_ifs
  · unfold log_stored log_called log_go
    simp only [List.append_assoc]
    exact List.prefix_append _ _
  · exact List.prefix_refl _

theorem log_stored_le_kernel (P : Platform) (hart : Int) (blob : Nat)
    (hN : 1 < P.CONFIG_MAX_NUM_NODES) :
    log_stored P hart blob <+: log_kernel P hart blob := by
  refine List.IsPrefix.trans ?_ (log_ready_le_kernel P hart blob)
  unfold log_ready
  rw [if_pos hN]
  exact List.prefix_append _ _

theorem log_called_le_kernel (P : Platform) (hart : Int) (blob : Nat)
    (hN : 1 < P.CONFIG_MAX_NUM_NODES) :
    log_called P hart blob <+: log_kernel P hart blob := by
  refine List.IsPrefix.trans ?_ (log_stored_le_kernel P hart blob hN)
  unfold log_stored
  exact List.prefix_append _ _

theorem log_loaded_le_halt (P : Platform) (hart : Int) (blob : Nat) :
    log_loaded P hart blob <+: log_halt P hart blob := by
  by_cases h : load_ok P blob
  · exact List.IsPrefix.trans (log_loaded_le_kernel P hart blob) (log_kernel_le_halt P hart blob h)
  · exact List.IsPrefix.trans (log_loaded_le_ret P hart blob h) (log_ret_le_halt P hart blob)

/-- Whatever the primary has logged so far is an initial segment of
`log_halt`, the longest log the primary can ever produce. -/
theorem primary_log_le_halt (P : Platform) (hart : Int) (blob : Nat) (t : Thread)
    (hp : PrimaryInv P hart blob t) : t.log <+: log_halt P hart blob := by
  obtain ⟨_, _, hpc⟩ := hp
  have hmain : ∀ l, l <+: log_loaded P hart blob → l <+: log_halt P hart blob :=
    fun l h => List.IsPrefix.trans h (log_loaded_le_halt P hart blob)
  cases hq : t.pc <;> rw [hq] at hpc <;> simp only [] at hpc
  case main_init => rw [hpc]; exact List.nil_prefix
  case main_printf_started => rw [hpc]; exact hmain _ ⟨_, rfl⟩
  case main_printf_paddr => rw [hpc]; exact hmain _ ⟨_, rfl⟩
  case re_load => rw [hpc]; exact hmain _ ⟨_, rfl⟩
  case re_err_load => rw [hpc.2.2]; exact hmain _ (List.prefix_refl _)
  case re_err_apps => rw [hpc.2.2.2]; exact hmain _ (List.prefix_refl _)
  case re_lock => rw [hpc.2.2]; exact hmain _ (List.prefix_refl _)
  case re_printf_entry => rw [hpc.2.2]; exact hmain _ (List.prefix_refl _)
  case re_unlock =>
    rw [hpc.2.2]
    refine List.IsPrefix.trans ?_ (List.IsPrefix.trans (log_called_le_kernel P hart blob hpc.2.1)
      (log_kernel_le_halt P hart blob hpc.1))
    unfold log_called log_go
    simp only [List.append_assoc]
    exact (List.prefix_append_right_inj _).mpr ⟨_, rfl⟩
  case re_store_go =>
    rw [hpc.2.2]
    refine List.IsPrefix.trans ?_ (List.IsPrefix.trans (log_called_le_kernel P hart blob hpc.2.1)
      (log_kernel_le_halt P hart blob hpc.1))
    unfold log_called log_go
    simp only [List.append_assoc]
    exact (List.prefix_append_right_inj _).mpr ⟨_, rfl⟩
  case re_loop i =>
    rw [hpc.2.2.2]
    refine List.IsPrefix.trans ?_ (List.IsPrefix.trans (log_called_le_kernel P hart blob hpc.2.1)
      (log_kernel_le_halt P hart blob hpc.1))
    unfold log_called
    rw [List.append_assoc]
    refine (List.prefix_append_right_inj _).mpr ?_
    exact List.IsPrefix.trans (hart_starts_isPrefix hart i _ hpc.2.2.1) (List.prefix_append _ _)
  case saw_lock =>
    rw [hpc.2.2.2.2]
    exact List.IsPrefix.trans (log_called_le_kernel P hart blob hpc.2.1)
      (log_kernel_le_halt P hart blob hpc.1)
  case saw_printf =>
    rw [hpc.2.2.2.2]
    exact List.IsPrefix.trans (log_called_le_kernel P hart blob hpc.2.1)
      (log_kernel_le_halt P hart blob hpc.1)
  case saw_store =>
    rw [hpc.2.2.2.2]
    refine List.IsPrefix.trans ?_ (List.IsPrefix.trans (log_stored_le_kernel P hart blob hpc.2.1)
      (log_kernel_le_halt P hart blob hpc.1))
    unfold log_stored
    exact (List.prefix_append_right_inj _).mpr ⟨_, rfl⟩
  case saw_unlock =>
    rw [hpc.2.2.2.2]
    exact List.IsPrefix.trans (log_stored_le_kernel P hart blob hpc.2.1)
      (log_kernel_le_halt P hart blob hpc.1)
  case saw_poll i =>
    rw [hpc.2.2.2.2.2]
    exact List.IsPrefix.trans (log_stored_le_kernel P hart blob hpc.2.1)
      (log_kernel_le_halt P hart blob hpc.1)
  case re_printf k =>
    rw [hpc.2.2]
    exact List.IsPrefix.trans (log_jump_le_kernel P hart blob k (by omega))
      (log_kernel_le_halt P hart blob hpc.1)
  case re_call =>
    rw [hpc.2]
    exact List.IsPrefix.trans (log_jump_le_kernel P hart blob 5 (by omega))
      (log_kernel_le_halt P hart blob hpc.1)
  case in_kernel => rw [hpc.2.2]; exact log_kernel_le_halt P hart blob hpc.1
  case re_kernel_returned => rw [hpc.2.2]; exact log_kernel_le_halt P hart blob hpc.1
  case main_ret r => rw [hpc.2.2]; exact log_ret_le_halt P hart blob
  case abort_printf => rw [hpc.2]; unfold log_halt; exact List.prefix_append _ _
  case abort_idle => rw [hpc.2]

/-! ## Load failures -/

theorem log_halt_of_not_ok (P : Platform) (hart : Int) (blob : Nat) (h : ¬ load_ok P blob)
    (e : Event) (he : e ∈ log_halt P hart blob) :
    e.is_kernel_entry = false ∧ e.is_store_go = false ∧ e.is_hart_start = false := by
  have hf : (log_halt P hart blob).filter
      (fun e => e.is_kernel_entry || e.is_store_go || e.is_hart_start) = [] := by
    unfold log_halt log_failed log_ret
    split_ifs with h1 h2
    · rfl
    · rfl
    · exact absurd ⟨not_not.mp h1, not_not.mp h2⟩ h
  have := List.filter_eq_nil_iff.mp hf e he
  simpa [Bool.or_eq_true, not_or, and_assoc] using this

theorem rank_lt_seven (P : Platform) (hart : Int) (blob : Nat) (h : ¬ load_ok P blob)
    (t : Thread) (hp : PrimaryInv P hart blob t) :
    (rank P blob t.pc < 7 → blocking t.pc = false) ∧
      (7 ≤ rank P blob t.pc → t.pc = .abort_idle) := by
  obtain ⟨_, _, hpc⟩ := hp
  cases hq : t.pc <;> rw [hq] at hpc <;> simp only [] at hpc <;>
    simp only [rank, blocking, if_neg h]
  all_goals first
    | exact hpc.elim
    | exact absurd hpc.1 h
    | (constructor <;> intro hr <;> trivial)

/-- C1: for every hart id, boot blob, platform and set of secondary cores, and
along every schedule.  If `load_images` returns a non-zero status, or returns
0 but reports `num_apps != 1`, then no core ever calls the kernel entry, the
primary never stores to `secondary_go` (which stays 0) and never calls
`sbi_hart_start`, and once the primary has executed seven statements it is in
the idle loop of `abort()`, having printed the halt message.  Conversely, a
kernel call in the primary's log implies status 0 and `num_apps == 1`. -/
theorem C1_load_failure_halts (P : Platform) (hart_id : Int) (bootloader_dtb : Nat)
    (secs : List (Int × Int)) (sched : List Nat) :
    (((P.load_images 1 bootloader_dtb).ret ≠ 0 ∨ (P.load_images 1 bootloader_dtb).num_apps ≠ 1) →
      (∀ t ∈ (Sys.run P (boot P hart_id bootloader_dtb secs) sched).threads, ∀ e ∈ t.log,
        e.is_kernel_entry = false ∧ e.is_store_go = false ∧ e.is_hart_start = false) ∧
      (Sys.run P (boot P hart_id bootloader_dtb secs) sched).g.secondary_go = 0 ∧
      (7 ≤ sched.count 0 →
        ∃ t0, (Sys.run P (boot P hart_id bootloader_dtb secs) sched).primary = some t0 ∧
          t0.pc = .abort_idle ∧
          Event.printf "HALT due to call to abort()\n" [] ∈ t0.log)) ∧
    (∀ t0, (Sys.run P (boot P hart_id bootloader_dtb secs) sched).primary = some t0 →
      (∃ e ∈ t0.log, e.is_kernel_entry = true) →
      (P.load_images 1 bootloader_dtb).ret = 0 ∧ (P.load_images 1 bootloader_dtb).num_apps = 1) := by
  have hinv := bootInv_boot P hart_id bootloader_dtb secs sched
  have hfail : ((P.load_images 1 bootloader_dtb).ret ≠ 0 ∨
      (P.load_images 1 bootloader_dtb).num_apps ≠ 1) → ¬ load_ok P bootloader_dtb := by
    rintro (h | h) hok
    · exact h hok.1
    · exact h hok.2
  constructor
  · intro hf
    have hnok := hfail hf
    obtain ⟨t0, rest, hth, hp, hg, hs⟩ := hinv
    have hgo0 : (Sys.run P (boot P hart_id bootloader_dtb secs) sched).g.secondary_go = 0 := by
      by_contra hne
      exact hnok (hg.2.2.1.mp hne).1
    refine ⟨?_, hgo0, ?_⟩
    · intro t ht e he
      rw [hth] at ht
      rcases List.mem_cons.mp ht with rfl | ht
      · exact log_halt_of_not_ok P hart_id bootloader_dtb hnok e
          ((primary_log_le_halt P hart_id bootloader_dtb t hp).subset he)
      · have hsi := hs t ht
        have hpc : t.pc = .se_wait_go := by
          by_contra hne
          exact hsi.1 hne hgo0
        have hl := hsi.2
        rw [hpc] at hl
        simp only [] at hl
        rw [hl] at he
        cases he
    · intro hcount
      obtain ⟨t1, h1, hr⟩ := primary_progress P hart_id bootloader_dtb 0 7
        (fun t hp _ hlt => (rank_lt_seven P hart_id bootloader_dtb hnok t hp).1 hlt)
        sched (boot P hart_id bootloader_dtb secs) (bootInv_init P hart_id bootloader_dtb secs)
        (main_thread hart_id bootloader_dtb) rfl (Nat.zero_le _)
        (by simpa [main_thread, rank] using hcount)
      obtain ⟨t0', h0', hp', _, _⟩ := bootInv_primary P hart_id bootloader_dtb _
        (bootInv_boot P hart_id bootloader_dtb secs sched)
      rw [h1] at h0'
      cases h0'
      have hpc := (rank_lt_seven P hart_id bootloader_dtb hnok t1 hp').2 hr
      refine ⟨t1, h1, hpc, ?_⟩
      have hl := hp'.2.2
      rw [hpc] at hl
      simp only [] at hl
      rw [hl.2, log_halt]
      simp
  · intro t0 h0 ⟨e, he, hke⟩
    obtain ⟨t0', h0', hp, _, _⟩ := bootInv_primary P hart_id bootloader_dtb _ hinv
    rw [h0] at h0'
    cases h0'
    by_contra hnok
    have hnok' : ¬ load_ok P bootloader_dtb := fun h => hnok h
    have := (log_halt_of_not_ok P hart_id bootloader_dtb hnok' e
      ((primary_log_le_halt P hart_id bootloader_dtb t0 hp).subset he)).1
    rw [this] at hke
    cases hke

set_option maxRecDepth 100000 in
/-- C1 witness: four cores, the loader returns status 1; after seven statements
of the primary (interleaved with a secondary) the primary sits in `abort`. -/
theorem C1_load_failure_halts_witness :
    (∀ t ∈ (Sys.run (failing_loader 4 1 0) (boot (failing_loader 4 1 0) 0 0 [(1, 1)])
        [0, 1, 0, 0, 1, 0, 0, 0, 0]).threads, ∀ e ∈ t.log,
        e.is_kernel_entry = false ∧ e.is_store_go = false ∧ e.is_hart_start = false) ∧
      (Sys.run (failing_loader 4 1 0) (boot (failing_loader 4 1 0) 0 0 [(1, 1)])
        [0, 1, 0, 0, 1, 0, 0, 0, 0]).g.secondary_go = 0 ∧
      (7 ≤ [0, 1, 0, 0, 1, 0, 0, 0, 0].count 0 →
        ∃ t0, (Sys.run (failing_loader 4 1 0) (boot (failing_loader 4 1 0) 0 0 [(1, 1)])
            [0, 1, 0, 0, 1, 0, 0, 0, 0]).primary = some t0 ∧
          t0.pc = .abort_idle ∧
          Event.printf "HALT due to call to abort()\n" [] ∈ t0.log) :=
  (C1_load_failure_halts (failing_loader 4 1 0) 0 0 [(1, 1)] [0, 1, 0, 0, 1, 0, 0, 0, 0]).1
    (Or.inl (by decide))

/-! ## The handoff on the primary core -/

theorem rank_called (P : Platform) (hart : Int) (blob : Nat) (t : Thread)
    (hp : PrimaryInv P hart blob t) (hok : load_ok P blob)
    (hr : base_rank P + 6 ≤ rank P blob t.pc) : called_kernel P blob t.pc = true := by
  obtain ⟨_, _, hpc⟩ := hp
  cases hq : t.pc <;> rw [hq] at hpc hr <;> simp only [] at hpc <;>
    simp only [rank, called_kernel, if_pos hok, base_rank] at hr ⊢
  all_goals first
    | rfl
    | exact hpc.elim
    | exact decide_eq_true hok
    | (split_ifs at hr <;> omega)

theorem free_before_call (P : Platform) (hart : Int) (blob : Nat) (t : Thread)
    (hp : PrimaryInv P hart blob t) (hok : load_ok P blob)
    (hlo : (if 1 < P.CONFIG_MAX_NUM_NODES then base_rank P else 0) ≤ rank P blob t.pc)
    (hr : rank P blob t.pc < base_rank P + 6) : blocking t.pc = false := by
  obtain ⟨_, _, hpc⟩ := hp
  cases hq : t.pc <;> rw [hq] at hpc hr hlo <;> simp only [] at hpc <;>
    simp only [rank, blocking, if_pos hok, base_rank] at hr hlo ⊢
  all_goals first
    | exact hpc.elim
    | omega
    | (split_ifs at hr hlo <;> omega)

theorem called_log (P : Platform) (hart : Int) (blob : Nat) (t : Thread)
    (hp : PrimaryInv P hart blob t) (hc : called_kernel P blob t.pc = true) :
    log_kernel P hart blob <+: t.log := by
  obtain ⟨_, _, hpc⟩ := hp
  cases hq : t.pc <;> rw [hq] at hpc hc <;> simp only [called_kernel] at hpc hc
  case in_kernel => rw [hpc.2.2]
  case re_kernel_returned => rw [hpc.2.2]
  case main_ret r =>
    have hok : load_ok P blob := of_decide_eq_true hc
    have h1 : ¬ (P.load_images 1 blob).ret ≠ 0 := fun x => x hok.1
    have h2 : ¬ (P.load_images 1 blob).num_apps ≠ 1 := fun x => x hok.2
    rw [hpc.2.2, log_ret, if_neg h1, if_neg h2]
    exact List.prefix_append _ _
  case abort_printf =>
    have hok : load_ok P blob := of_decide_eq_true hc
    have h1 : ¬ (P.load_images 1 blob).ret ≠ 0 := fun x => x hok.1
    have h2 : ¬ (P.load_images 1 blob).num_apps ≠ 1 := fun x => x hok.2
    rw [hpc.2, log_failed, log_ret, if_neg h1, if_neg h2, List.append_assoc]
    exact List.prefix_append _ _
  case abort_idle =>
    have hok : load_ok P blob := of_decide_eq_true hc
    have h1 : ¬ (P.load_images 1 blob).ret ≠ 0 := fun x => x hok.1
    have h2 : ¬ (P.load_images 1 blob).num_apps ≠ 1 := fun x => x hok.2
    rw [hpc.2, log_halt, log_failed, log_ret, if_neg h1, if_neg h2, List.append_assoc,
      List.append_assoc]
    exact List.prefix_append _ _
  all_goals cases hc

theorem not_mem_hart_starts (hart : Int) (n : Nat) (e : Event) (h : e.is_hart_start = false) :
    e ∉ hart_starts hart n := fun he => by
  rw [(hart_starts_kind hart n e he).1] at h
  cases h

set_option maxHeartbeats 4000000 in
theorem rank_of_returned (P : Platform) (hart : Int) (blob : Nat) (t : Thread)
    (hp : PrimaryInv P hart blob t)
    (hret : Event.return_set_and_wait_for_ready ∈ t.log) :
    load_ok P blob ∧ base_rank P ≤ rank P blob t.pc := by
  obtain ⟨_, _, hpc⟩ := hp
  have hns : ∀ n, Event.return_set_and_wait_for_ready ∉ hart_starts hart n :=
    fun n => not_mem_hart_starts hart n _ rfl
  cases hq : t.pc <;> rw [hq] at hpc <;> simp only [] at hpc <;> simp only [rank]
  case main_init => rw [hpc] at hret; cases hret
  case main_printf_started => rw [hpc] at hret; simp at hret
  case main_printf_paddr => rw [hpc] at hret; simp at hret
  case re_load => rw [hpc] at hret; simp [log_main] at hret
  case re_err_load => rw [hpc.2.2] at hret; simp [log_loaded, log_main] at hret
  case re_err_apps => rw [hpc.2.2.2] at hret; simp [log_loaded, log_main] at hret
  case re_lock => rw [hpc.2.2] at hret; simp [log_loaded, log_main] at hret
  case re_printf_entry => rw [hpc.2.2] at hret; simp [log_loaded, log_main] at hret
  case re_unlock => rw [hpc.2.2] at hret; simp [log_loaded, log_main] at hret
  case re_store_go => rw [hpc.2.2] at hret; simp [log_loaded, log_main] at hret
  case re_loop i =>
    rw [hpc.2.2.2] at hret; simp [log_go, log_loaded, log_main, hns] at hret
  case saw_lock =>
    rw [hpc.2.2.2.2] at hret; simp [log_called, log_go, log_loaded, log_main, hns] at hret
  case saw_printf =>
    rw [hpc.2.2.2.2] at hret; simp [log_called, log_go, log_loaded, log_main, hns] at hret
  case saw_store =>
    rw [hpc.2.2.2.2] at hret; simp [log_called, log_go, log_loaded, log_main, hns] at hret
  case saw_unlock =>
    rw [hpc.2.2.2.2] at hret
    simp [log_stored, log_called, log_go, log_loaded, log_main, hns] at hret
  case saw_poll i =>
    rw [hpc.2.2.2.2.2] at hret
    simp [log_stored, log_called, log_go, log_loaded, log_main, hns] at hret
  case re_printf k => exact ⟨hpc.1, by omega⟩
  case re_call => exact ⟨hpc.1, by omega⟩
  case in_kernel => exact ⟨hpc.1, by omega⟩
  case re_kernel_returned => exact ⟨hpc.1, by omega⟩
  case main_ret r =>
    by_cases hok : load_ok P blob
    · exact ⟨hok, by rw [if_pos hok]; omega⟩
    · exfalso
      rw [hpc.2.2] at hret
      unfold log_ret at hret
      split_ifs at hret with h1 h2
      · simp [log_loaded, log_main] at hret
      · simp [log_loaded, log_main] at hret
      · exact hok ⟨not_not.mp h1, not_not.mp h2⟩
  case abort_printf =>
    by_cases hok : load_ok P blob
    · exact ⟨hok, by rw [if_pos hok]; omega⟩
    · exfalso
      rw [hpc.2] at hret
      unfold log_failed log_ret at hret
      split_ifs at hret with h1 h2
      · simp [log_loaded, log_main] at hret
      · simp [log_loaded, log_main] at hret
      · exact hok ⟨not_not.mp h1, not_not.mp h2⟩
  case abort_idle =>
    by_cases hok : load_ok P blob
    · exact ⟨hok, by rw [if_pos hok]; omega⟩
    · exfalso
      rw [hpc.2] at hret
      unfold log_halt log_failed log_ret at hret
      split_ifs at hret with h1 h2
      · simp [log_loaded, log_main] at hret
      · simp [log_loaded, log_main] at hret
      · exact hok ⟨not_not.mp h1, not_not.mp h2⟩

theorem return_mem_log_kernel (P : Platform) (hart : Int) (blob : Nat)
    (hN : 1 < P.CONFIG_MAX_NUM_NODES) :
    Event.return_set_and_wait_for_ready ∈ log_kernel P hart blob ∧
      Event.call_set_and_wait_for_ready hart 0 ∈ log_jump P hart blob 5 ∧
      Event.store_core_ready 0 1 ∈ log_jump P hart blob 5 ∧
      Event.return_set_and_wait_for_ready ∈ log_jump P hart blob 5 := by
  simp [log_kernel, log_jump, log_ready, hN, log_stored, log_called]

theorem sys_step_length (P : Platform) (s : Sys) (i : Nat) :
    (Sys.step P s i).threads.length = s.threads.length := by
  unfold Sys.step
  split <;> simp

theorem sys_step_absent (P : Platform) (s : Sys) (i : Nat) (h : s.threads.length ≤ i) :
    Sys.step P s i = s := by
  unfold Sys.step
  rw [List.getElem?_eq_none h]

theorem sys_run_only_primary (P : Platform) (sched : List Nat) :
    ∀ s : Sys, s.threads.length = 1 →
      Sys.run P s sched = Sys.run P s (List.replicate (sched.count 0) 0) := by
  induction sched with
  | nil => intro s _; rfl
  | cons i rest ih =>
    intro s hs
    cases i with
    | zero =>
      rw [List.count_cons_self, List.replicate_succ]
      exact ih _ (by rw [sys_step_length]; exact hs)
    | succ j =>
      have hc : List.count 0 ((j + 1) :: rest) = List.count 0 rest := by
        rw [List.count_cons]; simp
      rw [hc]
      show Sys.run P (Sys.step P s (j + 1)) rest = _
      rw [sys_step_absent P s (j + 1) (by omega)]
      exact ih s hs

theorem sys_run_fixed (P : Platform) (s : Sys) (h : Sys.step P s 0 = s) (n : Nat) :
    Sys.run P s (List.replicate n 0) = s := by
  induction n with
  | zero => rfl
  | succ n ih =>
    rw [List.replicate_succ]
    show Sys.run P (Sys.step P s 0) _ = s
    rw [h, ih]

theorem sys_step_stuck (P : Platform) (s : Sys)
    (hN : P.CONFIG_MAX_NUM_NODES = 2)
    (hpc : s.threads.map Thread.pc = [PC.saw_poll 1]) (hcr : s.g.core_ready = [1, 0]) :
    Sys.step P s 0 = s := by
  cases s with
  | mk g threads =>
    cases threads with
    | nil => cases hpc
    | cons t0 rest =>
      simp only [List.map_cons, List.cons.injEq, List.map_eq_nil_iff] at hpc
      obtain ⟨hpc0, hrest⟩ := hpc
      subst hrest
      simp only at hcr
      simp [Sys.step, step, main, run_elfloader, set_and_wait_for_ready, secondary_entry, abort, hpc0, hN, hcr]

set_option maxRecDepth 100000 in
set_option maxHeartbeats 4000000 in
/-- C2 (as stated) fails: two cores configured, the load succeeds, but no
secondary core ever reaches `secondary_entry` (the start calls did not bring
one up).  Whatever the schedule and however long the primary runs, it ends up
spinning in the polling loop of `set_and_wait_for_ready` on `core_ready[1]`,
and its log never contains a kernel call. -/
theorem C2_counterexample :
    ((scenario 2).load_images 1 0).ret = 0 ∧ ((scenario 2).load_images 1 0).num_apps = 1 ∧
    ∀ sched : List Nat,
      (Sys.run (scenario 2) (boot (scenario 2) 0 0 []) sched).primary.map
        (fun t => t.log.filter Event.is_kernel_entry) = some [] := by
  refine ⟨rfl, rfl, ?_⟩
  intro sched
  rw [sys_run_only_primary (scenario 2) sched _ (by rfl)]
  generalize List.count 0 sched = n
  have hfix : Sys.step (scenario 2)
      (Sys.run (scenario 2) (boot (scenario 2) 0 0 []) (List.replicate 16 0)) 0 =
      Sys.run (scenario 2) (boot (scenario 2) 0 0 []) (List.replicate 16 0) :=
    sys_step_stuck _ _ rfl (by decide) (by decide)
  by_cases hn : n ≤ 16
  · interval_cases n <;> decide
  · obtain ⟨m, rfl⟩ : ∃ m, n = 16 + m := ⟨n - 16, by omega⟩
    rw [List.replicate_add, sys_run_append, sys_run_fixed _ _ hfix]
    decide

/-! ## Splitting a log at an event -/

theorem split_unique {α : Type} (p : α → Bool) :
    ∀ (A : List α) (x : α) (B pre : List α) (e : α) (post : List α),
      (∀ a ∈ A, p a = false) → (∀ b ∈ B, p b = false) →
      A ++ x :: B = pre ++ e :: post → p e = true → pre = A ∧ e = x ∧ post = B := by
  intro A
  induction A with
  | nil =>
    intro x B pre e post _ hB h he
    cases pre with
    | nil =>
      simp only [List.nil_append, List.cons.injEq] at h
      exact ⟨rfl, h.1.symm, h.2.symm⟩
    | cons y pre' =>
      simp only [List.nil_append, List.cons_append, List.cons.injEq] at h
      have : e ∈ B := by rw [h.2]; simp
      rw [hB e this] at he
      cases he
  | cons a A' ih =>
    intro x B pre e post hA hB h he
    cases pre with
    | nil =>
      simp only [List.nil_append, List.cons_append, List.cons.injEq] at h
      have := hA a (List.mem_cons_self _ _)
      rw [h.1, he] at this
      cases this
    | cons y pre' =>
      simp only [List.cons_append, List.cons.injEq] at h
      obtain ⟨h1, h2, h3⟩ := ih x B pre' e post
        (fun a' ha' => hA a' (List.mem_cons_of_mem _ ha')) hB h.2 he
      exact ⟨by rw [h.1, h1], h2, h3⟩

theorem split_after {α : Type} (p : α → Bool) :
    ∀ (A B pre : List α) (e : α) (post : List α),
      (∀ a ∈ A, p a = false) → A ++ B = pre ++ e :: post → p e = true →
      ∃ c, pre = A ++ c := by
  intro A
  induction A with
  | nil => intro B pre e post _ _ _; exact ⟨pre, rfl⟩
  | cons a A' ih =>
    intro B pre e post hA h he
    cases pre with
    | nil =>
      simp only [List.nil_append, List.cons_append, List.cons.injEq] at h
      have := hA a (List.mem_cons_self _ _)
      rw [h.1, he] at this
      cases this
    | cons y pre' =>
      simp only [List.cons_append, List.cons.injEq] at h
      obtain ⟨c, hc⟩ := ih B pre' e post
        (fun a' ha' => hA a' (List.mem_cons_of_mem _ ha')) h.2 he
      exact ⟨c, by rw [h.1, hc]; rfl⟩

theorem filter_nil_forall {α : Type} (p : α → Bool) (l : List α) (h : l.filter p = []) :
    ∀ a ∈ l, p a = false := by
  intro a ha
  have := List.filter_eq_nil_iff.mp h a ha
  simpa using this

theorem log_halt_of_ok (P : Platform) (hart : Int) (blob : Nat) (h : load_ok P blob) :
    log_halt P hart blob = log_jump P hart blob 5 ++ primary_handoff P hart blob ::
      [.printf "ERROR: Kernel returned back to the ELF Loader\n" [],
       .printf "ERROR: ELF-loader failed, code %d\n" [-1],
       .printf "HALT due to call to abort()\n" []] := by
  have h1 : ¬ (P.load_images 1 blob).ret ≠ 0 := fun x => x h.1
  have h2 : ¬ (P.load_images 1 blob).num_apps ≠ 1 := fun x => x h.2
  simp only [log_halt, log_failed, log_ret, if_neg h1, if_neg h2, log_kernel, List.append_assoc,
    List.singleton_append]
  rfl

theorem mem_log_halt_ok (P : Platform) (hart : Int) (blob : Nat) (t : Thread)
    (hp : PrimaryInv P hart blob t) (e : Event) (he : e ∈ t.log)
    (hk : e.is_kernel_entry = true ∨ e.is_hart_start = true) : load_ok P blob := by
  by_contra hnok
  have := log_halt_of_not_ok P hart blob hnok e ((primary_log_le_halt P hart blob t hp).subset he)
  rcases hk with hk | hk
  · rw [this.1] at hk; cases hk
  · rw [this.2.2] at hk; cases hk

/-! ## A returning kernel on the primary core -/

theorem rank_halted (P : Platform) (hart : Int) (blob : Nat) (t : Thread)
    (hp : PrimaryInv P hart blob t) (hok : load_ok P blob)
    (hkr : primary_kernel_returns P hart blob) :
    (called_kernel P blob t.pc = true → base_rank P + 6 ≤ rank P blob t.pc) ∧
    (base_rank P + 6 ≤ rank P blob t.pc → rank P blob t.pc < base_rank P + 9 →
      blocking t.pc = false) ∧
    (base_rank P + 9 ≤ rank P blob t.pc → t.pc = .abort_idle) := by
  obtain ⟨_, _, hpc⟩ := hp
  cases hq : t.pc <;> rw [hq] at hpc <;> simp only [] at hpc <;>
    simp only [rank, called_kernel, blocking, if_pos hok, base_rank]
  case in_kernel => exact absurd hkr hpc.2.1
  all_goals first
    | exact hpc.elim
    | (refine ⟨fun h => ?_, fun h1 h2 => ?_, fun h => ?_⟩ <;>
        first
          | trivial
          | omega
          | cases h
          | (split_ifs at h <;> omega)
          | (split_ifs at h1 h2 <;> omega))

/-- C3: along every schedule of a boot episode the primary core is never at
`returned`, i.e. `main` does not return to its caller; whatever the primary
logs after its kernel call is diagnostic output only; and if the kernel call
has been made and hands control back, then within three more statements of
the primary `run_elfloader` has reported the return and returned `-1`, `main`
has reported that code, and the primary sits in the idle loop of `abort()`. -/
theorem C3_kernel_return_is_fatal (P : Platform) (hart_id : Int) (bootloader_dtb : Nat)
    (secs : List (Int × Int)) (sched : List Nat) :
    ∃ t0, (Sys.run P (boot P hart_id bootloader_dtb secs) sched).primary = some t0 ∧
      t0.pc ≠ .returned ∧
      (∀ pre e post, t0.log = pre ++ e :: post → e.is_kernel_entry = true →
        ∀ x ∈ post, x.is_printf = true) ∧
      ((∃ e ∈ t0.log, e.is_kernel_entry = true) →
        primary_kernel_returns P hart_id bootloader_dtb →
        ∀ more : List Nat, 3 ≤ more.count 0 →
          ∃ t1 pre,
            (Sys.run P (Sys.run P (boot P hart_id bootloader_dtb secs) sched) more).primary
              = some t1 ∧
            t1.pc = .abort_idle ∧
            pre.filter Event.is_kernel_entry = [] ∧
            t1.log = pre ++ [primary_handoff P hart_id bootloader_dtb,
              .printf "ERROR: Kernel returned back to the ELF Loader\n" [],
              .printf "ERROR: ELF-loader failed, code %d\n" [-1],
              .printf "HALT due to call to abort()\n" []]) := by
  have hinv := bootInv_boot P hart_id bootloader_dtb secs sched
  obtain ⟨t0, h0, hp, hg, _⟩ := bootInv_primary P hart_id bootloader_dtb _ hinv
  refine ⟨t0, h0, ?_, ?_, ?_⟩
  · intro hpc
    have := hp.2.2
    rw [hpc] at this
    exact this
  · intro pre e post hl he x hx
    have hok := mem_log_halt_ok P hart_id bootloader_dtb t0 hp e (by rw [hl]; simp) (Or.inl he)
    obtain ⟨R, hR⟩ := primary_log_le_halt P hart_id bootloader_dtb t0 hp
    rw [hl, log_halt_of_ok P hart_id bootloader_dtb hok, List.append_assoc,
      List.cons_append] at hR
    obtain ⟨_, _, h3⟩ := split_unique Event.is_kernel_entry _ _ _ _ _ _
      (filter_nil_forall _ _ (ke_log_jump P hart_id bootloader_dtb 5))
      (by intro b hb; simp at hb; rcases hb with rfl | rfl | rfl <;> rfl) hR.symm he
    have hx' : x ∈ post ++ R := List.mem_append_left _ hx
    rw [h3] at hx'
    simp at hx'
    rcases hx' with rfl | rfl | rfl <;> rfl
  · rintro ⟨e, he, hke⟩ hkr more hcount
    have hok := mem_log_halt_ok P hart_id bootloader_dtb t0 hp e he (Or.inl hke)
    have hcalled : called_kernel P bootloader_dtb t0.pc = true := by
      by_contra hc
      have hf := primary_kernel_entries P hart_id bootloader_dtb t0 hp
      rw [if_neg hc] at hf
      have := filter_nil_forall _ _ hf e he
      rw [this] at hke
      cases hke
    have hlo := (rank_halted P hart_id bootloader_dtb t0 hp hok hkr).1 hcalled
    obtain ⟨t1, h1, hr1⟩ := primary_progress P hart_id bootloader_dtb (base_rank P + 6)
      (base_rank P + 9)
      (fun t hp hlo hlt => (rank_halted P hart_id bootloader_dtb t hp hok hkr).2.1 hlo hlt)
      more _ hinv t0 h0 hlo (by omega)
    obtain ⟨t1', h1', hp1, _, _⟩ := bootInv_primary P hart_id bootloader_dtb _
      (bootInv_run P hart_id bootloader_dtb more _ hinv)
    rw [h1] at h1'
    cases h1'
    have hpc1 := (rank_halted P hart_id bootloader_dtb t1 hp1 hok hkr).2.2 hr1
    have hl := hp1.2.2
    rw [hpc1] at hl
    simp only [] at hl
    exact ⟨t1, log_jump P hart_id bootloader_dtb 5, h1, hpc1,
      ke_log_jump P hart_id bootloader_dtb 5,
      by rw [hl.2, log_halt_of_ok P hart_id bootloader_dtb hok]⟩

set_option maxRecDepth 100000 in
/-- C3 witness: single-core scenario with a kernel that returns; ten statements
take the primary through the kernel call, three more into `abort`. -/
theorem C3_kernel_return_is_fatal_witness :
    ∃ t1 pre,
      (Sys.run (returning_kernel 1) (Sys.run (returning_kernel 1)
        (boot (returning_kernel 1) 0 0 []) (List.replicate 10 0)) [0, 0, 0]).primary = some t1 ∧
      t1.pc = .abort_idle ∧
      pre.filter Event.is_kernel_entry = [] ∧
      t1.log = pre ++ [primary_handoff (returning_kernel 1) 0 0,
        .printf "ERROR: Kernel returned back to the ELF Loader\n" [],
        .printf "ERROR: ELF-loader failed, code %d\n" [-1],
        .printf "HALT due to call to abort()\n" []] := by
  obtain ⟨t0, h0, _, _, h⟩ :=
    C3_kernel_return_is_fatal (returning_kernel 1) 0 0 [] (List.replicate 10 0)
  have hmem : ∃ e ∈ t0.log, e.is_kernel_entry = true := by
    have h0' : (Sys.run (returning_kernel 1) (boot (returning_kernel 1) 0 0 [])
        (List.replicate 10 0)).primary.map
          (fun t => t.log.any Event.is_kernel_entry) = some true := by decide
    rw [h0] at h0'
    simp only [Option.map_some', Option.some.injEq, List.any_eq_true] at h0'
    exact h0'
  exact h hmem rfl [0, 0, 0] (by decide)

/-! ## Starting the secondary cores -/

theorem iterations_le (P : Platform) (hart : Int) (blob : Nat) (t : Thread)
    (hp : PrimaryInv P hart blob t) : iterations P blob t.pc ≤ loop_end P := by
  obtain ⟨_, _, hpc⟩ := hp
  cases hq : t.pc <;> rw [hq] at hpc <;> simp only [] at hpc <;> simp only [iterations]
  all_goals first
    | exact hpc.elim
    | exact hpc.2.2.1
    | omega
    | (split_ifs <;> omega)

theorem rank_started (P : Platform) (hart : Int) (blob : Nat) (t : Thread)
    (hp : PrimaryInv P hart blob t) (hok : load_ok P blob) (hN : 1 < P.CONFIG_MAX_NUM_NODES) :
    (rank P blob t.pc < 9 + loop_end P → blocking t.pc = false) ∧
    (9 + loop_end P ≤ rank P blob t.pc → iterations P blob t.pc = loop_end P) := by
  obtain ⟨_, _, hpc⟩ := hp
  cases hq : t.pc <;> rw [hq] at hpc <;> simp only [] at hpc <;>
    simp only [rank, iterations, blocking, if_pos hok, if_pos hN, base_rank,
      if_pos (And.intro hok hN)]
  all_goals first
    | exact hpc.elim
    | (refine ⟨fun h => ?_, fun h => ?_⟩ <;>
        first
          | trivial
          | omega)

/-- C6 (as amended): after a successful load, with `CONFIG_MAX_NUM_NODES = N > 1`
and `hsm_exists`, along every schedule the `sbi_hart_start` calls in the
primary's log are an initial segment of the list "for each `k` from 1 to `N`
other than `hart_id`, in increasing order: `sbi_hart_start(k, secondary_harts,
k)`", and they are the whole list once the primary has executed `9 + N`
statements.  That list has `N - 1` entries when `1 <= hart_id <= N` and `N`
entries otherwise. -/
theorem C6_hart_start_calls (P : Platform) (hart_id : Int) (bootloader_dtb : Nat)
    (secs : List (Int × Int)) (sched : List Nat)
    (hret : (P.load_images 1 bootloader_dtb).ret = 0)
    (happs : (P.load_images 1 bootloader_dtb).num_apps = 1)
    (hN : 1 < P.CONFIG_MAX_NUM_NODES) (hhsm : P.hsm_exists = true) :
    (∃ t0, (Sys.run P (boot P hart_id bootloader_dtb secs) sched).primary = some t0 ∧
      t0.log.filter Event.is_hart_start <+:
        ((List.range' 1 P.CONFIG_MAX_NUM_NODES).filter
          (fun k : Nat => decide ((k : Int) ≠ hart_id))).map
          (fun k : Nat => Event.sbi_hart_start (k : Int) .secondary_harts (k : Int)) ∧
      (9 + P.CONFIG_MAX_NUM_NODES ≤ sched.count 0 →
        t0.log.filter Event.is_hart_start =
          ((List.range' 1 P.CONFIG_MAX_NUM_NODES).filter
            (fun k : Nat => decide ((k : Int) ≠ hart_id))).map
            (fun k : Nat => Event.sbi_hart_start (k : Int) .secondary_harts (k : Int)))) ∧
    (((List.range' 1 P.CONFIG_MAX_NUM_NODES).filter
        (fun k : Nat => decide ((k : Int) ≠ hart_id))).map
        (fun k : Nat => Event.sbi_hart_start (k : Int) .secondary_harts (k : Int))).length =
      if 1 ≤ hart_id ∧ hart_id ≤ (P.CONFIG_MAX_NUM_NODES : Int)
      then P.CONFIG_MAX_NUM_NODES - 1 else P.CONFIG_MAX_NUM_NODES := by
  have hok : load_ok P bootloader_dtb := ⟨hret, happs⟩
  have hL : loop_end P = P.CONFIG_MAX_NUM_NODES := by unfold loop_end; rw [if_pos hhsm]
  have hinv := bootInv_boot P hart_id bootloader_dtb secs sched
  obtain ⟨t0, h0, hp, hg, _⟩ := bootInv_primary P hart_id bootloader_dtb _ hinv
  have hhs := primary_hart_starts P hart_id bootloader_dtb t0 hp
  rw [← hart_starts_closed_form]
  refine ⟨⟨t0, h0, ?_, ?_⟩, hart_starts_length hart_id _⟩
  · rw [hhs]
    exact hart_starts_isPrefix hart_id _ _ (hL ▸ iterations_le P hart_id bootloader_dtb t0 hp)
  · intro hcount
    obtain ⟨t1, h1, hr⟩ := primary_progress P hart_id bootloader_dtb 0 (9 + loop_end P)
      (fun t hp _ hlt => (rank_started P hart_id bootloader_dtb t hp hok hN).1 hlt)
      sched (boot P hart_id bootloader_dtb secs) (bootInv_init P hart_id bootloader_dtb secs)
      (main_thread hart_id bootloader_dtb) rfl (Nat.zero_le _)
      (by simp only [main_thread, rank]; omega)
    rw [h0] at h1
    cases h1
    rw [hhs, (rank_started P hart_id bootloader_dtb t0 hp hok hN).2 hr, hL]

set_option maxRecDepth 100000 in
/-- C6 witness: four cores, primary on hart 1: harts 2, 3 and 4 are started. -/
theorem C6_hart_start_calls_witness :
    ∃ t0, (Sys.run (scenario 4) (boot (scenario 4) 1 0 []) (List.replicate 13 0)).primary
        = some t0 ∧
      t0.log.filter Event.is_hart_start =
        [.sbi_hart_start 2 .secondary_harts 2, .sbi_hart_start 3 .secondary_harts 3,
         .sbi_hart_start 4 .secondary_harts 4] := by
  obtain ⟨⟨t0, h0, _, h1⟩, _⟩ :=
    C6_hart_start_calls (scenario 4) 1 0 [] (List.replicate 13 0) rfl rfl (by decide) rfl
  exact ⟨t0, h0, h1 (by decide)⟩

set_option maxRecDepth 100000 in
/-- C6 (as stated) fails: four cores configured and the primary on hart 0 (its
hart id is not among 1..4): after a successful load the primary calls
`sbi_hart_start` four times, for harts 1, 2, 3 and 4, not `N - 1 = 3` times. -/
theorem C6_counterexample :
    (Sys.run (scenario 4) (boot (scenario 4) 0 0 []) (List.replicate 13 0)).primary.map
      (fun t => t.log.filter Event.is_hart_start) =
    some [.sbi_hart_start 1 .secondary_harts 1, .sbi_hart_start 2 .secondary_harts 2,
          .sbi_hart_start 3 .secondary_harts 3, .sbi_hart_start 4 .secondary_harts 4] := by
  decide

/-! ## Order of the bring-up steps -/

theorem log_halt_no_call (P : Platform) (hart : Int) (blob : Nat)
    (h : ¬ (load_ok P blob ∧ 1 < P.CONFIG_MAX_NUM_NODES)) :
    ∀ e ∈ log_halt P hart blob, e.is_barrier_call = false := by
  apply filter_nil_forall
  by_cases hok : load_ok P blob
  · have hN : ¬ 1 < P.CONFIG_MAX_NUM_NODES := fun hN => h ⟨hok, hN⟩
    have hj : (jump_printfs (P.load_images 1 blob).kernel_info 5).filter
        Event.is_barrier_call = [] := by
      rw [List.filter_eq_nil_iff]
      intro e he
      have := (mem_jump_printfs _ _ e he).1
      cases e <;> simp_all [Event.is_printf, Event.is_barrier_call]
    rw [log_halt_of_ok P hart blob hok, log_jump, log_ready, if_neg hN, List.filter_append,
      List.filter_append, hj]
    rfl
  · unfold log_halt log_failed log_ret
    split_ifs with h1 h2
    · rfl
    · rfl
    · exact absurd ⟨not_not.mp h1, not_not.mp h2⟩ hok

theorem log_halt_split_call (P : Platform) (hart : Int) (blob : Nat)
    (hok : load_ok P blob) (hN : 1 < P.CONFIG_MAX_NUM_NODES) :
    log_halt P hart blob =
      (log_go P hart blob ++ hart_starts hart (loop_end P)) ++
        Event.call_set_and_wait_for_ready hart 0 ::
          ([.printf "Hart ID %d core ID %d\n" [hart, 0], .store_core_ready 0 1,
            .return_set_and_wait_for_ready] ++
           jump_printfs (P.load_images 1 blob).kernel_info 5 ++
           [primary_handoff P hart blob,
            .printf "ERROR: Kernel returned back to the ELF Loader\n" [],
            .printf "ERROR: ELF-loader failed, code %d\n" [-1],
            .printf "HALT due to call to abort()\n" []]) := by
  rw [log_halt_of_ok P hart blob hok, log_jump, log_ready, if_pos hN, log_stored, log_called]
  simp only [List.append_assoc, List.cons_append, List.nil_append]

/-- C7: in a multi-core configuration, along every schedule, the log of the
primary is ordered as follows.  Every `sbi_hart_start` call is preceded by the
store of 1 to `secondary_go`; no `sbi_hart_start` call follows the call
`set_and_wait_for_ready(hart_id, 0)`; and the kernel call is preceded by that
call, by the primary's store to `core_ready[0]` and by the return of
`set_and_wait_for_ready`. -/
theorem C7_bring_up_order (P : Platform) (hart_id : Int) (bootloader_dtb : Nat)
    (secs : List (Int × Int)) (sched : List Nat) (hN : 1 < P.CONFIG_MAX_NUM_NODES) :
    ∃ t0, (Sys.run P (boot P hart_id bootloader_dtb secs) sched).primary = some t0 ∧
      (∀ pre e post, t0.log = pre ++ e :: post → e.is_hart_start = true →
        Event.store_secondary_go 1 ∈ pre) ∧
      (∀ pre post, t0.log = pre ++ Event.call_set_and_wait_for_ready hart_id 0 :: post →
        ∀ x ∈ post, x.is_hart_start = false) ∧
      (∀ pre e post, t0.log = pre ++ e :: post → e.is_kernel_entry = true →
        Event.call_set_and_wait_for_ready hart_id 0 ∈ pre ∧
        Event.store_core_ready 0 1 ∈ pre ∧
        Event.return_set_and_wait_for_ready ∈ pre) := by
  have hinv := bootInv_boot P hart_id bootloader_dtb secs sched
  obtain ⟨t0, h0, hp, hg, _⟩ := bootInv_primary P hart_id bootloader_dtb _ hinv
  obtain ⟨R, hR⟩ := primary_log_le_halt P hart_id bootloader_dtb t0 hp
  refine ⟨t0, h0, ?_, ?_, ?_⟩
  · intro pre e post hl he
    have hok := mem_log_halt_ok P hart_id bootloader_dtb t0 hp e (by rw [hl]; simp) (Or.inr he)
    rw [hl, log_halt_split_call P hart_id bootloader_dtb hok hN, List.append_assoc,
      List.append_assoc, List.cons_append] at hR
    obtain ⟨c, hc⟩ := split_after Event.is_hart_start _ _ _ _ _
      (filter_nil_forall _ _ (hs_log_go P hart_id bootloader_dtb)) hR.symm he
    rw [hc]
    simp [log_go]
  · intro pre post hl x hx
    by_cases hok : load_ok P bootloader_dtb
    · rw [hl, log_halt_split_call P hart_id bootloader_dtb hok hN, List.append_assoc,
        List.cons_append] at hR
      obtain ⟨_, _, h3⟩ := split_unique Event.is_barrier_call _ _ _ _ _ _
        (by
          intro a ha
          rcases List.mem_append.mp ha with ha | ha
          · simp only [log_go, log_loaded, log_main, List.mem_append, List.mem_cons,
              List.mem_singleton, List.not_mem_nil, or_false] at ha
            rcases ha with ((rfl | rfl | rfl) | rfl) | rfl | rfl <;> rfl
          · obtain ⟨k, _, _, _, rfl⟩ := (mem_hart_starts _ _ _).mp ha
            rfl)
        (by
          intro b hb
          simp only [List.mem_append, List.mem_cons, List.mem_singleton, List.not_mem_nil,
            or_false] at hb
          rcases hb with ((rfl | rfl | rfl) | hb) | rfl | rfl | rfl | rfl
          · rfl
          · rfl
          · rfl
          · have := (mem_jump_printfs _ _ b hb).1
            cases b <;> simp_all [Event.is_printf, Event.is_barrier_call]
          · rfl
          · rfl
          · rfl
          · rfl)
        hR.symm rfl
      have hx' : x ∈ post ++ R := List.mem_append_left _ hx
      rw [h3] at hx'
      simp only [List.mem_append, List.mem_cons, List.mem_singleton, List.not_mem_nil,
        or_false] at hx'
      rcases hx' with ((rfl | rfl | rfl) | hb) | rfl | rfl | rfl | rfl
      · rfl
      · rfl
      · rfl
      · exact (mem_jump_printfs _ _ x hb).2.2.1
      · rfl
      · rfl
      · rfl
      · rfl
    · exfalso
      have := log_halt_no_call P hart_id bootloader_dtb (fun h => hok h.1)
        (Event.call_set_and_wait_for_ready hart_id 0)
        ((primary_log_le_halt P hart_id bootloader_dtb t0 hp).subset (by rw [hl]; simp))
      cases this
  · intro pre e post hl he
    have hok := mem_log_halt_ok P hart_id bootloader_dtb t0 hp e (by rw [hl]; simp) (Or.inl he)
    rw [hl, log_halt_of_ok P hart_id bootloader_dtb hok, List.append_assoc,
      List.cons_append] at hR
    obtain ⟨c, hc⟩ := split_after Event.is_kernel_entry _ _ _ _ _
      (filter_nil_forall _ _ (ke_log_jump P hart_id bootloader_dtb 5)) hR.symm he
    have hm := return_mem_log_kernel P hart_id bootloader_dtb hN
    rw [hc]
    exact ⟨List.mem_append_left _ hm.2.1, List.mem_append_left _ hm.2.2.1,
      List.mem_append_left _ hm.2.2.2⟩

set_option maxRecDepth 100000 in
/-- C7 witness: two cores, both running to the handoff; the second component
shows the relevant events of the primary's log in their order. -/
theorem C7_bring_up_order_witness :
    (∃ t0, (Sys.run (scenario 2) (boot (scenario 2) 0 0 [(1, 1)])
        (List.replicate 16 0 ++ List.replicate 9 1 ++ List.replicate 8 0)).primary = some t0 ∧
      (∀ pre e post, t0.log = pre ++ e :: post → e.is_hart_start = true →
        Event.store_secondary_go 1 ∈ pre) ∧
      (∀ pre post, t0.log = pre ++ Event.call_set_and_wait_for_ready 0 0 :: post →
        ∀ x ∈ post, x.is_hart_start = false) ∧
      (∀ pre e post, t0.log = pre ++ e :: post → e.is_kernel_entry = true →
        Event.call_set_and_wait_for_ready 0 0 ∈ pre ∧
        Event.store_core_ready 0 1 ∈ pre ∧
        Event.return_set_and_wait_for_ready ∈ pre)) ∧
    (Sys.run (scenario 2) (boot (scenario 2) 0 0 [(1, 1)])
        (List.replicate 16 0 ++ List.replicate 9 1 ++ List.replicate 8 0)).primary.map
      (fun t => t.log.filter
        (fun e => e.is_store_go || e.is_hart_start || e.is_barrier_call || e.is_kernel_entry))
      = some [.store_secondary_go 1, .sbi_hart_start 1 .secondary_harts 1,
              .sbi_hart_start 2 .secondary_harts 2, .call_set_and_wait_for_ready 0 0,
              .kernel_entry 0x90000000 [0x1000, 0x2000, 0x0, 0x1000, 0x3000, 0x400, 0, 0]] :=
  ⟨C7_bring_up_order (scenario 2) 0 0 [(1, 1)]
      (List.replicate 16 0 ++ List.replicate 9 1 ++ List.replicate 8 0) (by decide),
    by decide⟩

/-! ## The target of the handoff -/

set_option maxRecDepth 100000 in
/-- C9 (as the code behaves): in the two-core scenario the kernel image has
`phys_region_start = 0x90000000` and `virt_entry = 0x190000000`.  Both cores
run to their handoff.  The secondary calls `0x190000000`, the entry address,
as the claim says.  The primary prints the entry address `0x190000000` on
line 125 and then, on line 126, calls `0x90000000`, the physical start of the
image: its target is not `kernel_info.virt_entry`, and the two cores of the
episode do not call the same address. -/
theorem C9_primary_calls_phys_region_start :
    ((scenario 2).load_images 1 0).kernel_info.virt_entry = 0x190000000 ∧
    ((scenario 2).load_images 1 0).kernel_info.phys_region_start = 0x90000000 ∧
    (Sys.run (scenario 2) (boot (scenario 2) 0 0 [(1, 1)])
        (List.replicate 16 0 ++ List.replicate 13 1 ++ List.replicate 8 0)).threads.map
      (fun t => (t.log.filter Event.is_kernel_entry).map Event.target)
      = [[some 0x90000000], [some 0x190000000]] ∧
    (Sys.run (scenario 2) (boot (scenario 2) 0 0 [(1, 1)])
        (List.replicate 16 0 ++ List.replicate 13 1 ++ List.replicate 8 0)).primary.map
      (fun t => t.log.drop 16)
      = some [Event.printf "kernel_virt_entry: %p\n" [0x190000000],
              Event.kernel_entry 0x90000000 [0x1000, 0x2000, 0x0, 0x1000, 0x3000, 0x400, 0, 0]] := by
  decide

/-! ## The handoff waits for the barrier -/

theorem passed_step (P : Platform) (hart : Int) (blob : Nat) (g : Globals) (t : Thread)
    (hp : PrimaryInv P hart blob t) (hg : GlobInv P blob g t.pc)
    (h : ∀ j, j < passed P blob t.pc → slot_set g j) :
    ∀ j, j < passed P blob (step P g t).2.pc → slot_set (step P g t).1 j := by
  have hsuff : (∀ j, j < passed P blob (step P g t).2.pc → slot_set g j) →
      ∀ j, j < passed P blob (step P g t).2.pc → slot_set (step P g t).1 j :=
    fun hh j hj => slot_set_step P g t j (hh j hj)
  apply hsuff
  obtain ⟨_, _, hpc⟩ := hp
  obtain ⟨hlen, _, _, _⟩ := hg
  cases hq : t.pc <;> rw [hq] at hpc h <;> simp only [passed] at hpc h
  case saw_poll i =>
    obtain ⟨hok, hN, hc, hra, hi, hl⟩ := hpc
    simp only [step, main, run_elfloader, set_and_wait_for_ready, secondary_entry, abort, hq]
    split_ifs with h1
    · have hilen : i < g.core_ready.length := by rw [hlen]; exact h1
      rw [List.getElem?_eq_getElem hilen]
      simp only []
      split_ifs with h2
      · simp only [hq, passed]; exact h
      · simp only [Thread.goto, passed]
        intro j hj
        by_cases hji : j = i
        · subst hji; exact ⟨_, List.getElem?_eq_getElem hilen, h2⟩
        · exact h j (by omega)
    · simp only [Thread.goto, hra, passed, if_pos hN]
      intro j hj
      exact h j (by omega)
  case re_printf k =>
    simp only [step, main, run_elfloader, set_and_wait_for_ready, secondary_entry, abort, hq,
      Thread.goto]
    split_ifs <;> simp only [passed] <;> exact h
  case re_call =>
    simp only [step, main, run_elfloader, set_and_wait_for_ready, secondary_entry, abort, hq]
    split_ifs <;> simp only [Thread.goto, passed] <;> exact h
  case re_kernel_returned =>
    simp only [step, main, run_elfloader, set_and_wait_for_ready, secondary_entry, abort, hq,
      Thread.goto, passed]
    intro j hj
    apply h j
    split_ifs at hj with h1
    · rw [if_pos h1.2]; exact hj
    · omega
  case main_ret r =>
    simp only [step, main, run_elfloader, set_and_wait_for_ready, secondary_entry, abort, hq]
    split_ifs <;> simp only [Thread.goto, passed] <;> exact h
  case abort_printf =>
    simp only [step, main, run_elfloader, set_and_wait_for_ready, secondary_entry, abort, hq,
      Thread.goto, passed]
    exact h
  case abort_idle =>
    simp only [step, main, run_elfloader, set_and_wait_for_ready, secondary_entry, abort, hq,
      passed]
    exact h
  case in_kernel =>
    simp only [step, hq, passed]
    exact h
  case re_load =>
    simp only [step, main, run_elfloader, set_and_wait_for_ready, secondary_entry, abort, hq]
    split_ifs with h1 h2 h3 <;> simp only [Thread.goto, passed]
    · intro j hj; omega
    · intro j hj; omega
    · intro j hj; omega
    · rw [if_neg h3]; intro j hj; omega
  case re_err_load r =>
    have hnok : ¬ (load_ok P blob ∧ 1 < P.CONFIG_MAX_NUM_NODES) := fun hh => hpc.2.1 hh.1.1
    simp only [step, main, run_elfloader, set_and_wait_for_ready, secondary_entry, abort, hq,
      Thread.goto, passed, if_neg hnok]
    intro j hj; omega
  case re_err_apps n =>
    have hnok : ¬ (load_ok P blob ∧ 1 < P.CONFIG_MAX_NUM_NODES) :=
      fun hh => hpc.2.2.1 (hpc.2.1 ▸ hh.1.2)
    simp only [step, main, run_elfloader, set_and_wait_for_ready, secondary_entry, abort, hq,
      Thread.goto, passed, if_neg hnok]
    intro j hj; omega
  all_goals
    simp only [step, main, run_elfloader, set_and_wait_for_ready, secondary_entry, abort, hq]
  all_goals (try split_ifs)
  all_goals simp only [Thread.goto, passed, hq]
  all_goals (intro j hj; omega)

theorem sys_step_slot_set (P : Platform) (s : Sys) (i j : Nat) (h : slot_set s.g j) :
    slot_set (Sys.step P s i).g j :=
  sys_step_preserves P (fun g => slot_set g j) (fun g t => slot_set_step P g t j) s i h

theorem passed_sys_step (P : Platform) (hart : Int) (blob : Nat) (s : Sys) (i : Nat)
    (hinv : BootInv P hart blob s)
    (h : ∀ t0, s.primary = some t0 → ∀ j, j < passed P blob t0.pc → slot_set s.g j) :
    ∀ t1, (Sys.step P s i).primary = some t1 →
      ∀ j, j < passed P blob t1.pc → slot_set (Sys.step P s i).g j := by
  obtain ⟨t0, h0, hp, hg, _⟩ := bootInv_primary P hart blob s hinv
  intro t1 h1 j hj
  cases i with
  | zero =>
    obtain ⟨hz, hgz⟩ := sys_step_primary_zero P s t0 h0
    rw [hz] at h1
    cases h1
    rw [hgz]
    exact passed_step P hart blob s.g t0 hp hg (h t0 h0) j hj
  | succ k =>
    rw [sys_step_primary_succ P s k] at h1
    exact sys_step_slot_set P s (k + 1) j (h t1 h1 j hj)

theorem passed_run (P : Platform) (hart : Int) (blob : Nat) (sched : List Nat) :
    ∀ s : Sys, BootInv P hart blob s →
      (∀ t0, s.primary = some t0 → ∀ j, j < passed P blob t0.pc → slot_set s.g j) →
      ∀ t1, (Sys.run P s sched).primary = some t1 →
        ∀ j, j < passed P blob t1.pc → slot_set (Sys.run P s sched).g j := by
  induction sched with
  | nil => intro s _ h; exact h
  | cons i rest ih =>
    intro s hinv h
    exact ih _ (bootInv_step P hart blob s i hinv) (passed_sys_step P hart blob s i hinv h)

theorem passed_boot (P : Platform) (hart : Int) (blob : Nat) (secs : List (Int × Int))
    (sched : List Nat) :
    ∀ t1, (Sys.run P (boot P hart blob secs) sched).primary = some t1 →
      ∀ j, j < passed P blob t1.pc → slot_set (Sys.run P (boot P hart blob secs) sched).g j := by
  apply passed_run P hart blob sched _ (bootInv_init P hart blob secs)
  intro t0 h0 j hj
  have : t0 = main_thread hart blob := by
    simp only [Sys.primary, boot, List.head?_cons, Option.some.injEq] at h0
    exact h0.symm
  rw [this] at hj
  simp [main_thread, passed] at hj

theorem slots_of_all_set (g : Globals) (n : Nat) (hlen : g.core_ready.length = n)
    (h : ∀ j, j < n → slot_set g j) : ∀ v ∈ g.core_ready, v ≠ 0 := by
  intro v hv
  obtain ⟨j, hj, hget⟩ := List.getElem_of_mem hv
  obtain ⟨w, hw, hw0⟩ := h j (by rw [← hlen]; exact hj)
  rw [List.getElem?_eq_getElem hj, hget] at hw
  cases hw
  exact hw0

theorem all_set_of_slots (g : Globals) (n : Nat) (hlen : g.core_ready.length = n)
    (h : ∀ v ∈ g.core_ready, v ≠ 0) : ∀ j, j < n → slot_set g j := by
  intro j hj
  have hj' : j < g.core_ready.length := by rw [hlen]; exact hj
  exact ⟨_, List.getElem?_eq_getElem hj', h _ (List.getElem_mem _)⟩

theorem passed_of_rank (P : Platform) (hart : Int) (blob : Nat) (t : Thread)
    (hp : PrimaryInv P hart blob t) (hok : load_ok P blob) (hN : 1 < P.CONFIG_MAX_NUM_NODES)
    (hr : base_rank P ≤ rank P blob t.pc) : passed P blob t.pc = P.CONFIG_MAX_NUM_NODES := by
  obtain ⟨_, _, hpc⟩ := hp
  cases hq : t.pc <;> rw [hq] at hpc hr <;> simp only [] at hpc <;>
    simp only [rank, passed, if_pos hok, if_pos hN, base_rank, if_pos (And.intro hok hN)] at hr ⊢
  all_goals first
    | exact hpc.elim
    | omega

theorem rank_step_ready (P : Platform) (hart : Int) (blob : Nat) (g : Globals) (t : Thread)
    (hp : PrimaryInv P hart blob t) (hg : GlobInv P blob g t.pc)
    (hok : load_ok P blob) (hN : 1 < P.CONFIG_MAX_NUM_NODES)
    (hall : ∀ j, j < P.CONFIG_MAX_NUM_NODES → slot_set g j)
    (hlo : 12 + loop_end P ≤ rank P blob t.pc) (hhi : rank P blob t.pc < base_rank P + 6) :
    rank P blob (step P g t).2.pc = rank P blob t.pc + 1 := by
  cases hb : blocking t.pc
  · exact rank_step P hart blob g t hp hg hb
  · obtain ⟨_, _, hpc⟩ := hp
    obtain ⟨hlen, _, _, _⟩ := hg
    cases hq : t.pc <;> rw [hq] at hpc hb hlo hhi <;> simp only [blocking] at hpc hb
    case saw_lock => simp only [rank] at hlo; omega
    case saw_poll i =>
      obtain ⟨_, _, hc, hra, hi, hl⟩ := hpc
      simp only [step, main, run_elfloader, set_and_wait_for_ready, secondary_entry, abort, hq]
      split_ifs with h1
      · obtain ⟨v, hv, hv0⟩ := hall i h1
        rw [hv]
        simp only [if_neg hv0, Thread.goto, rank]
        omega
      · simp only [Thread.goto, rank, hra, base_rank, if_pos hN]
        omega
    case abort_idle => simp only [rank, if_pos hok] at hhi; omega
    case in_kernel => simp only [rank] at hhi; omega
    all_goals cases hb

/-- Once every `core_ready` slot is non-zero, a primary that has released the
barrier lock gets to its kernel call without ever blocking. -/
theorem primary_progress_ready (P : Platform) (hart : Int) (blob : Nat)
    (hok : load_ok P blob) (hN : 1 < P.CONFIG_MAX_NUM_NODES) (sched : List Nat) :
    ∀ s : Sys, BootInv P hart blob s →
      (∀ j, j < P.CONFIG_MAX_NUM_NODES → slot_set s.g j) →
      ∀ t0, s.primary = some t0 → 12 + loop_end P ≤ rank P blob t0.pc →
      base_rank P + 6 ≤ rank P blob t0.pc + sched.count 0 →
      ∃ t1, (Sys.run P s sched).primary = some t1 ∧ base_rank P + 6 ≤ rank P blob t1.pc := by
  induction sched with
  | nil =>
    intro s _ _ t0 h0 _ hhi
    exact ⟨t0, h0, by simpa using hhi⟩
  | cons i rest ih =>
    intro s hinv hall t0 h0 hlo hhi
    have hinv1 := bootInv_step P hart blob s i hinv
    have hall1 : ∀ j, j < P.CONFIG_MAX_NUM_NODES → slot_set (Sys.step P s i).g j :=
      fun j hj => sys_step_slot_set P s i j (hall j hj)
    obtain ⟨t0', h0', hp, hg, _⟩ := bootInv_primary P hart blob s hinv
    rw [h0] at h0'
    cases h0'
    cases i with
    | zero =>
      have hz := (sys_step_primary_zero P s t0 h0).1
      have hmono := rank_mono P hart blob s.g t0 hp hg
      simp only [List.count_cons_self] at hhi
      by_cases hlt : rank P blob t0.pc < base_rank P + 6
      · have hstep := rank_step_ready P hart blob s.g t0 hp hg hok hN hall hlo hlt
        exact ih _ hinv1 hall1 _ hz (by omega) (by omega)
      · exact ih _ hinv1 hall1 _ hz (by omega) (by omega)
    | succ j =>
      have hz := sys_step_primary_succ P s j
      rw [h0] at hz
      have hc : List.count 0 ((j + 1) :: rest) = List.count 0 rest := by
        rw [List.count_cons]; simp
      rw [hc] at hhi
      exact ih _ hinv1 hall1 _ hz hlo hhi

set_option maxHeartbeats 4000000 in
theorem rank_of_stored (P : Platform) (hart : Int) (blob : Nat) (t : Thread)
    (hp : PrimaryInv P hart blob t) (hok : load_ok P blob) (hN : 1 < P.CONFIG_MAX_NUM_NODES)
    (hst : Event.store_core_ready 0 1 ∈ t.log) : 12 + loop_end P ≤ rank P blob t.pc := by
  obtain ⟨_, _, hpc⟩ := hp
  have hns : ∀ n, Event.store_core_ready 0 1 ∉ hart_starts hart n :=
    fun n => not_mem_hart_starts hart n _ rfl
  cases hq : t.pc <;> rw [hq] at hpc <;> simp only [] at hpc <;>
    simp only [rank, base_rank, if_pos hN, if_pos hok]
  case main_init => rw [hpc] at hst; cases hst
  case main_printf_started => rw [hpc] at hst; simp at hst
  case main_printf_paddr => rw [hpc] at hst; simp at hst
  case re_load => rw [hpc] at hst; simp [log_main] at hst
  case re_err_load => exact absurd hok.1 hpc.2.1
  case re_err_apps => exact absurd hok.2 (hpc.2.1 ▸ hpc.2.2.1)
  case re_lock => rw [hpc.2.2] at hst; simp [log_loaded, log_main] at hst
  case re_printf_entry => rw [hpc.2.2] at hst; simp [log_loaded, log_main] at hst
  case re_unlock => rw [hpc.2.2] at hst; simp [log_loaded, log_main] at hst
  case re_store_go => rw [hpc.2.2] at hst; simp [log_loaded, log_main] at hst
  case re_loop i =>
    rw [hpc.2.2.2] at hst; simp [log_go, log_loaded, log_main, hns] at hst
  case saw_lock =>
    rw [hpc.2.2.2.2] at hst; simp [log_called, log_go, log_loaded, log_main, hns] at hst
  case saw_printf =>
    rw [hpc.2.2.2.2] at hst; simp [log_called, log_go, log_loaded, log_main, hns] at hst
  case saw_store =>
    rw [hpc.2.2.2.2] at hst; simp [log_called, log_go, log_loaded, log_main, hns] at hst
  all_goals first
    | exact hpc.elim
    | omega

/-- C2 (as amended): after a successful load (status 0, `num_apps == 1`), along
every schedule, the primary's log holds at most one kernel call, and that call
is `primary_handoff`: target `kernel_info.phys_region_start` with the arguments
`user_info.phys_region_start, user_info.phys_region_end,
user_info.phys_virt_offset, user_info.virt_entry, dtb, dtb_size`, followed by
`hart_id, 0` exactly when `CONFIG_MAX_NUM_NODES > 1`.  With
`CONFIG_MAX_NUM_NODES <= 1` the call has been made once the primary has
executed ten statements.  With `CONFIG_MAX_NUM_NODES = N > 1`: the table
`core_ready` has `N` slots; as long as some slot of `core_ready` is zero,
`set_and_wait_for_ready` has not returned on the primary and there is no
kernel call; there is no kernel call before `set_and_wait_for_ready` has
returned; once it has returned the call is made within the next six
statements of the primary; and once the primary has stored to its own slot and
every slot of `core_ready` is non-zero, the call is made within the next
`N + 8` statements of the primary. -/
theorem C2_handoff_arguments (P : Platform) (hart_id : Int) (bootloader_dtb : Nat)
    (secs : List (Int × Int)) (sched : List Nat)
    (hret : (P.load_images 1 bootloader_dtb).ret = 0)
    (happs : (P.load_images 1 bootloader_dtb).num_apps = 1) :
    primary_handoff P hart_id bootloader_dtb =
      Event.kernel_entry (P.load_images 1 bootloader_dtb).kernel_info.phys_region_start
        ([((P.load_images 1 bootloader_dtb).user_info.phys_region_start : Int),
          ((P.load_images 1 bootloader_dtb).user_info.phys_region_end : Int),
          ((P.load_images 1 bootloader_dtb).user_info.phys_virt_offset : Int),
          ((P.load_images 1 bootloader_dtb).user_info.virt_entry : Int),
          ((P.load_images 1 bootloader_dtb).dtb : Int),
          ((P.load_images 1 bootloader_dtb).dtb_size : Int)]
          ++ (if 1 < P.CONFIG_MAX_NUM_NODES then [hart_id, 0] else [])) ∧
    ∃ t0, (Sys.run P (boot P hart_id bootloader_dtb secs) sched).primary = some t0 ∧
      (t0.log.filter Event.is_kernel_entry = [] ∨
        t0.log.filter Event.is_kernel_entry = [primary_handoff P hart_id bootloader_dtb]) ∧
      (P.CONFIG_MAX_NUM_NODES ≤ 1 → 10 ≤ sched.count 0 →
        t0.log.filter Event.is_kernel_entry = [primary_handoff P hart_id bootloader_dtb]) ∧
      (1 < P.CONFIG_MAX_NUM_NODES → Event.return_set_and_wait_for_ready ∉ t0.log →
        t0.log.filter Event.is_kernel_entry = []) ∧
      (1 < P.CONFIG_MAX_NUM_NODES → Event.return_set_and_wait_for_ready ∈ t0.log →
        ∀ more : List Nat, 6 ≤ more.count 0 →
          ∃ t1, (Sys.run P (Sys.run P (boot P hart_id bootloader_dtb secs) sched) more).primary
              = some t1 ∧
            t1.log.filter Event.is_kernel_entry = [primary_handoff P hart_id bootloader_dtb]) ∧
      (Sys.run P (boot P hart_id bootloader_dtb secs) sched).g.core_ready.length
        = P.CONFIG_MAX_NUM_NODES ∧
      (1 < P.CONFIG_MAX_NUM_NODES →
        (∃ v ∈ (Sys.run P (boot P hart_id bootloader_dtb secs) sched).g.core_ready, v = 0) →
        Event.return_set_and_wait_for_ready ∉ t0.log ∧
          t0.log.filter Event.is_kernel_entry = []) ∧
      (1 < P.CONFIG_MAX_NUM_NODES → Event.store_core_ready 0 1 ∈ t0.log →
        (∀ v ∈ (Sys.run P (boot P hart_id bootloader_dtb secs) sched).g.core_ready, v ≠ 0) →
        ∀ more : List Nat, P.CONFIG_MAX_NUM_NODES + 8 ≤ more.count 0 →
          ∃ t1, (Sys.run P (Sys.run P (boot P hart_id bootloader_dtb secs) sched) more).primary
              = some t1 ∧
            t1.log.filter Event.is_kernel_entry = [primary_handoff P hart_id bootloader_dtb]) := by
  have hok : load_ok P bootloader_dtb := ⟨hret, happs⟩
  have hinv := bootInv_boot P hart_id bootloader_dtb secs sched
  obtain ⟨t0, h0, hp, hg, _⟩ := bootInv_primary P hart_id bootloader_dtb _ hinv
  have hke := primary_kernel_entries P hart_id bootloader_dtb t0 hp
  have hnoret : 1 < P.CONFIG_MAX_NUM_NODES → Event.return_set_and_wait_for_ready ∉ t0.log →
      t0.log.filter Event.is_kernel_entry = [] := by
    intro hN hnr
    rw [hke]
    split_ifs with hc
    · exfalso
      exact hnr ((called_log P hart_id bootloader_dtb t0 hp hc).subset
        (return_mem_log_kernel P hart_id bootloader_dtb hN).1)
    · rfl
  refine ⟨rfl, t0, h0, ?_, ?_, hnoret, ?_, hg.1, ?_, ?_⟩
  · rw [hke]
    split_ifs
    · exact Or.inr rfl
    · exact Or.inl rfl
  · intro hN hcount
    have hB : base_rank P = 4 := by unfold base_rank; rw [if_neg (by omega)]
    obtain ⟨t1, h1, hr⟩ := primary_progress P hart_id bootloader_dtb 0 (base_rank P + 6)
      (fun t hp _ hlt => free_before_call P hart_id bootloader_dtb t hp hok
        (by rw [if_neg (by omega)]; omega) hlt)
      sched (boot P hart_id bootloader_dtb secs) (bootInv_init P hart_id bootloader_dtb secs)
      (main_thread hart_id bootloader_dtb) rfl (Nat.zero_le _)
      (by simp only [main_thread, rank]; omega)
    rw [h0] at h1
    cases h1
    rw [hke, if_pos (rank_called P hart_id bootloader_dtb t0 hp hok hr)]
  · intro hN hr more hcount
    have hB := (rank_of_returned P hart_id bootloader_dtb t0 hp hr).2
    obtain ⟨t1, h1, hr1⟩ := primary_progress P hart_id bootloader_dtb (base_rank P)
      (base_rank P + 6)
      (fun t hp hlo hlt => free_before_call P hart_id bootloader_dtb t hp hok
        (by rw [if_pos hN]; exact hlo) hlt)
      more _ hinv t0 h0 hB (by omega)
    obtain ⟨t1', h1', hp1, _, _⟩ := bootInv_primary P hart_id bootloader_dtb _
      (bootInv_run P hart_id bootloader_dtb more _ hinv)
    rw [h1] at h1'
    cases h1'
    refine ⟨t1, h1, ?_⟩
    rw [primary_kernel_entries P hart_id bootloader_dtb t1 hp1,
      if_pos (rank_called P hart_id bootloader_dtb t1 hp1 hok hr1)]
  · rintro hN ⟨v, hv, hv0⟩
    have hnr : Event.return_set_and_wait_for_ready ∉ t0.log := by
      intro hr
      have hB := (rank_of_returned P hart_id bootloader_dtb t0 hp hr).2
      have hpass := passed_of_rank P hart_id bootloader_dtb t0 hp hok hN hB
      have hall := passed_boot P hart_id bootloader_dtb secs sched t0 h0
      rw [hpass] at hall
      exact slots_of_all_set _ _ hg.1 hall v hv hv0
    exact ⟨hnr, hnoret hN hnr⟩
  · intro hN hst hall more hcount
    have hlo := rank_of_stored P hart_id bootloader_dtb t0 hp hok hN hst
    have hB : base_rank P = 14 + loop_end P + P.CONFIG_MAX_NUM_NODES := by
      unfold base_rank; rw [if_pos hN]
    obtain ⟨t1, h1, hr1⟩ := primary_progress_ready P hart_id bootloader_dtb hok hN more _ hinv
      (all_set_of_slots _ _ hg.1 hall) t0 h0 hlo (by omega)
    obtain ⟨t1', h1', hp1, _, _⟩ := bootInv_primary P hart_id bootloader_dtb _
      (bootInv_run P hart_id bootloader_dtb more _ hinv)
    rw [h1] at h1'
    cases h1'
    refine ⟨t1, h1, ?_⟩
    rw [primary_kernel_entries P hart_id bootloader_dtb t1 hp1,
      if_pos (rank_called P hart_id bootloader_dtb t1 hp1 hok hr1)]

set_option maxRecDepth 100000 in
/-- C2 witness.  First the single-core scenario of the specification
(start=0x1000, end=0x2000, offset=0x0, entry=0x1000): after ten statements the
log holds exactly one kernel call with the six values.  Then two cores: the
primary runs fifteen statements (it has stored to `core_ready[0]` and released
the lock), the secondary seven (it has stored to `core_ready[1]`), so every
slot is non-zero, and ten more statements of the primary produce exactly one
kernel call, with `hart_id, 0` as arguments 7 and 8. -/
theorem C2_handoff_arguments_witness :
    (∃ t0, (Sys.run (scenario 1) (boot (scenario 1) 0 0 []) (List.replicate 10 0)).primary
        = some t0 ∧
      t0.log.filter Event.is_kernel_entry =
        [Event.kernel_entry 0x90000000 [0x1000, 0x2000, 0x0, 0x1000, 0x3000, 0x400]]) ∧
    (∃ t1, (Sys.run (scenario 2) (Sys.run (scenario 2) (boot (scenario 2) 5 0 [(1, 1)])
          (List.replicate 15 0 ++ List.replicate 7 1)) (List.replicate 10 0)).primary
        = some t1 ∧
      t1.log.filter Event.is_kernel_entry =
        [Event.kernel_entry 0x90000000 [0x1000, 0x2000, 0x0, 0x1000, 0x3000, 0x400, 5, 0]]) := by
  constructor
  · obtain ⟨_, t0, h0, _, h1, _⟩ :=
      C2_handoff_arguments (scenario 1) 0 0 [] (List.replicate 10 0) rfl rfl
    exact ⟨t0, h0, h1 (by decide) (by decide)⟩
  · obtain ⟨_, t0, h0, _, _, _, _, _, _, h⟩ :=
      C2_handoff_arguments (scenario 2) 5 0 [(1, 1)]
        (List.replicate 15 0 ++ List.replicate 7 1) rfl rfl
    have hst : Event.store_core_ready 0 1 ∈ t0.log := by
      have h0' : (Sys.run (scenario 2) (boot (scenario 2) 5 0 [(1, 1)])
          (List.replicate 15 0 ++ List.replicate 7 1)).primary.map
            (fun t => decide (Event.store_core_ready 0 1 ∈ t.log)) = some true := by decide
      rw [h0] at h0'
      simpa using h0'
    exact h (by decide) hst (by decide) (List.replicate 10 0) (by decide)

end Elfloader
